import Mathlib

/-!
Verification development for the profile-aware RAG chatbot backend
(`backend/utils.py` of the 100BM chatbot repository).

Modelling conventions, used throughout:
* Python strings are modelled as `String` at API boundaries and as `List Char`
  internally (`String.data`);
* Python `None`-able values are `Option`; Python truthiness of a string is
  nonemptiness, of an integer is being nonzero;
* steps that can raise are `Except String` (the payload models `str(e)`);
* `str.lower` / `str.upper` / `str.title` are modelled on the ASCII fragment
  (every keyword table, trigger phrase and fixed text in the source is ASCII);
* the regex class `\s`, `str.strip` and `str.split` use the six ASCII
  whitespace characters (exotic Unicode whitespace is not modelled);
* the external retrieval service and the chat model are oracles: records of
  outcomes handed to the orchestrator (`AskOracle`, `StreamOracle`), and
  wall-clock readings (`time.time` deltas, `datetime.now().isoformat()`) are
  oracle fields (`latency`, `now`).
-/

namespace ChatBot

/-- ASCII fragment of Python `str.lower` (codepoints 65-90 shift by +32). -/
def lowerChar (c : Char) : Char :=
  if 65 ≤ c.toNat ∧ c.toNat ≤ 90 then Char.ofNat (c.toNat + 32) else c

/-- ASCII fragment of Python `str.upper` (codepoints 97-122 shift by -32). -/
def upperChar (c : Char) : Char :=
  if 97 ≤ c.toNat ∧ c.toNat ≤ 122 then Char.ofNat (c.toNat - 32) else c

/-- The six ASCII whitespace characters matched by Python's `\s` and stripped
by `str.strip` (space, tab, newline, carriage return, vertical tab, form
feed). -/
def isPySpace (c : Char) : Bool :=
  c == ' ' || c == '\t' || c == '\n' || c == '\r' || c == '\x0b' || c == '\x0c'

/-- The regex class `[a-z]`. -/
def isLowerAlpha (c : Char) : Bool :=
  decide (97 ≤ c.toNat) && decide (c.toNat ≤ 122)

/-- ASCII uppercase letter. -/
def isUpperAlpha (c : Char) : Bool :=
  decide (65 ≤ c.toNat) && decide (c.toNat ≤ 90)

/-- ASCII letter (the cased characters relevant to `str.title`). -/
def isAsciiAlpha (c : Char) : Bool := isLowerAlpha c || isUpperAlpha c

/-- The regex class `\d` (ASCII digits). -/
def isDigitChar (c : Char) : Bool :=
  decide (48 ≤ c.toNat) && decide (c.toNat ≤ 57)

/-- Python `str.lstrip` (no arguments). -/
def pyStripLeft (l : List Char) : List Char := l.dropWhile isPySpace

/-- Python `str.rstrip` (no arguments). -/
def pyStripRight (l : List Char) : List Char :=
  (l.reverse.dropWhile isPySpace).reverse

/-- Python `str.strip` (no arguments). -/
def pyStrip (l : List Char) : List Char := pyStripLeft (pyStripRight l)

/-- Boolean prefix test: `leadsB t s` holds when the character list `t`
stands at the very start of `s`. -/
def leadsB : List Char → List Char → Bool
  | [], _ => true
  | _ :: _, [] => false
  | a :: as, b :: bs => a == b && leadsB as bs

/-- `leads t s`: `t` is an initial segment of `s`. -/
def leads (t s : List Char) : Prop := ∃ r, s = t ++ r

/-- `occurs t s`: `t` is a contiguous segment of `s` (Python `t in s`). -/
def occurs (t s : List Char) : Prop := ∃ a b, s = a ++ t ++ b

/-- Boolean substring test, scanning left to right (Python `t in s`). -/
def occursB (t : List Char) : List Char → Bool
  | [] => leadsB t []
  | c :: cs => leadsB t (c :: cs) || occursB t cs

/-- Index of the leftmost position of `l` at which one of the triggers in
`ts` starts, if any (the match-start search of `re.sub`/`re.search` for an
alternation of literal triggers). -/
def findOccAny (ts : List (List Char)) : List Char → Option Nat
  | [] => if ts.any (fun t => leadsB t []) then some 0 else none
  | c :: cs =>
    if ts.any (fun t => leadsB t (c :: cs)) then some 0
    else (findOccAny ts cs).map (· + 1)

/-- Model of the newline-collapsing substitution in STEP 6 (regex `\n\n\n+`
replaced by two newlines): every maximal run of three or more newlines
collapses to exactly two.  The recursion drops one newline from
the front of any run that still has at least three. -/
def collapse : List Char → List Char
  | [] => []
  | c :: cs =>
    if c = '\n' ∧ cs.head? = some '\n' ∧ cs.tail.head? = some '\n'
    then collapse cs
    else c :: collapse cs

/-- Fuelled worker for `replaceAll`; the fuel only serves structural
termination and is never exhausted when it starts at the list length
(each step consumes at least one character). -/
def replaceAllF (pat : List Char) : Nat → List Char → List Char
  | _, [] => []
  | 0, l => l
  | fuel + 1, c :: cs =>
    if pat ≠ [] ∧ leadsB pat (c :: cs)
    then replaceAllF pat fuel (List.drop (pat.length - 1) cs)
    else c :: replaceAllF pat fuel cs

/-- Python str.replace of a nonempty `pat` by the empty string: delete
every occurrence, scanning left to right without overlap. -/
def replaceAll (pat : List Char) (l : List Char) : List Char :=
  replaceAllF pat l.length l

/-- Worker for `wordsCount`; the flag records whether the previous character
was part of a word. -/
def wordsCountAux : Bool → List Char → Nat
  | _, [] => 0
  | inWord, c :: cs =>
    if isPySpace c then wordsCountAux false cs
    else (if inWord then 0 else 1) + wordsCountAux true cs

/-- `len(s.split())` in Python: the number of maximal runs of
non-whitespace characters. -/
def wordsCount (l : List Char) : Nat := wordsCountAux false l

/-- Numeric value of a run of ASCII digits (Python `int` on the capture of
`\d+`). -/
def digitsToNat (l : List Char) : Nat :=
  l.foldl (fun a c => a * 10 + (c.toNat - 48)) 0

/-- ASCII fragment of Python `str.title`: the first letter of each maximal
letter run is uppercased, every later letter of the run is lowercased. -/
def titleAux : Bool → List Char → List Char
  | _, [] => []
  | prevCased, c :: cs =>
    if isAsciiAlpha c then
      (if prevCased then lowerChar c else upperChar c) :: titleAux true cs
    else c :: titleAux false cs

/-- `str.title` on a string. -/
def asciiTitle (l : List Char) : List Char := titleAux false l

/-! ## Profile detector (`ProfileDetector`, utils.py lines 39-214) -/

/-- `ProfileDetector.PROFILE_KEYWORDS`, in Python dict declaration order
(insertion order is iteration order). -/
def PROFILE_KEYWORDS : List (String × List String) := [
  ("doctor", ["doctor", "physician", "medical", "healthcare provider", "clinician", "surgeon", "dentist"]),
  ("hr_leader", ["hr", "human resources", "hr manager", "hr director", "chro", "people ops", "talent"]),
  ("entrepreneur", ["entrepreneur", "founder", "startup", "business owner", "ceo of startup", "starting business"]),
  ("corporate_executive", ["executive", "cxo", "vp", "vice president", "director", "senior leader", "c-suite"]),
  ("consultant", ["consultant", "consulting", "advisor", "advisory"]),
  ("engineer", ["engineer", "technical lead", "tech professional", "software", "it professional"]),
  ("lawyer", ["lawyer", "attorney", "legal", "advocate"]),
  ("educator", ["teacher", "professor", "educator", "academic", "principal"]),
  ("finance", ["finance", "accountant", "cfo", "financial", "banker"])]

/-- The dictionary returned by `ProfileDetector.detect_profile`: a named
profile has no `custom_profile` key (modelled `none`). -/
structure Detection where
  profile : String
  custom_profile : Option String
  confidence : String
  detected_keyword : String
deriving DecidableEq, Repr

/-- The two nested `for` loops over `PROFILE_KEYWORDS` (lines 67-74):
first profile, in declaration order, one of whose keywords is a substring of
the lowered question; carries the matched keyword. -/
def findKeywordHit : List (String × List String) → List Char → Option (String × String)
  | [], _ => none
  | (p, kws) :: rest, ql =>
    match kws.find? (fun k => occursB k.data ql) with
    | some k => some (p, k)
    | none => findKeywordHit rest ql

/-- The capture group `([a-z\s]+)` is greedy with nothing after it: it takes
the maximal run of lowercase letters and whitespace. -/
def profCapture (l : List Char) : List Char :=
  l.takeWhile (fun c => isLowerAlpha c || isPySpace c)

/-- Attempt of one self-identification regex `lit(?:a|an) ([a-z\s]+)` at a
fixed position: the alternation tries `a ` first, then `an ` (the two are
mutually exclusive), and the `+` demands a nonempty capture. -/
def customMatchAt (lit : List Char) (l : List Char) : Option (List Char) :=
  if leadsB (lit ++ "a ".data) l then
    let cap := profCapture (l.drop (lit.length + 2))
    if cap = [] then none else some cap
  else if leadsB (lit ++ "an ".data) l then
    let cap := profCapture (l.drop (lit.length + 3))
    if cap = [] then none else some cap
  else none

/-- `re.search` of one self-identification pattern: leftmost position with a
full match (including a nonempty capture). -/
def searchCustom (lit : List Char) : List Char → Option (List Char)
  | [] => customMatchAt lit []
  | c :: cs =>
    match customMatchAt lit (c :: cs) with
    | some cap => some cap
    | none => searchCustom lit cs

/-- The split alternation of the re.split pattern
`\s+(?:how|what|where|when|why|can|do)`.
These are matched as plain prefixes: no word boundary follows, so e.g.
` donor` also splits (at the `do`). -/
def QUESTION_SPLIT_WORDS : List (List Char) :=
  ["how".data, "what".data, "where".data, "when".data, "why".data, "can".data, "do".data]

/-- First index `m ≥ 1` of the list whose predecessor is whitespace and at
which one of the split words starts; this is where the leftmost match of
`\s+(?:how|...|do)` places the end of its whitespace run. -/
def findSplitPos : List Char → Option Nat
  | [] => none
  | c :: cs =>
    if isPySpace c && QUESTION_SPLIT_WORDS.any (fun w => leadsB w cs) then some 1
    else (findSplitPos cs).map (· + 1)

/-- Element 0 of the re.split of a profession phrase at the pattern
`\s+(?:how|what|where|when|why|can|do)`: everything
before the leftmost match start, i.e. the prefix up to the split word with
its preceding whitespace run removed. -/
def truncateAtQword (p : List Char) : List Char :=
  match findSplitPos p with
  | none => p
  | some m => pyStripRight (p.take m)

/-- One iteration of the pattern loop (lines 84-96): search the pattern,
strip and truncate the capture, and accept it only when nonempty with at
most 3 words; otherwise this pattern contributes nothing and the loop
continues. -/
def tryCustomPattern (lit : List Char) (ql : List Char) : Option Detection :=
  match searchCustom lit ql with
  | none => none
  | some cap =>
    let profession := truncateAtQword (pyStrip cap)
    if profession ≠ [] ∧ wordsCount profession ≤ 3 then
      some ⟨"custom", some (String.mk profession), "medium", String.mk profession⟩
    else none

/-- The four `profession_patterns` (lines 77-82): the fixed literal part in
front of `(?:a|an) ([a-z\s]+)`. -/
def PROFESSION_PATTERNS : List (List Char) :=
  ["i am ".data, "as ".data, "i\x27m ".data, "working as ".data]

/-- `ProfileDetector.detect_profile` (lines 58-98). -/
def detect_profile (question : String) : Option Detection :=
  let ql := question.data.map lowerChar
  match findKeywordHit PROFILE_KEYWORDS ql with
  | some (p, k) => some ⟨p, none, "high", k⟩
  | none => PROFESSION_PATTERNS.findSome? (fun lit => tryCustomPattern lit ql)

/-- The fixed profile-context paragraphs of
`ProfileDetector.get_profile_context` (lines 106-196), in declaration order;
each is the content of the corresponding triple-quoted Python literal. -/
def PROFILE_CONTEXTS : List (String × String) := [
  ("doctor", "\n            Healthcare professionals focused on:\n            - Patient outcomes and care quality\n            - Managing medical teams (residents, nurses)\n            - Clinical excellence and research\n            - Hospital administration and operations\n            - Board certification and advancement\n            - Balancing clinical work with leadership\n            "),
  ("hr_leader", "\n            Human Resources leaders focused on:\n            - Talent acquisition and retention\n            - Employee development and engagement\n            - Organizational culture and change\n            - Performance management systems\n            - Strategic workforce planning\n            - Diversity, equity, and inclusion\n            "),
  ("entrepreneur", "\n            Business founders focused on:\n            - Building and scaling businesses\n            - Product-market fit and growth\n            - Fundraising and investor relations\n            - Team building and leadership\n            - Customer acquisition and retention\n            - Managing limited resources effectively\n            "),
  ("corporate_executive", "\n            Senior corporate leaders focused on:\n            - Strategic business decisions\n            - P&L management and growth\n            - Stakeholder management (board, investors)\n            - Organizational transformation\n            - Leading large teams (100+ people)\n            - Cross-functional collaboration\n            "),
  ("consultant", "\n            Professional consultants focused on:\n            - Client engagement and delivery\n            - Problem-solving and recommendations\n            - Building credibility and expertise\n            - Managing multiple projects\n            - Thought leadership and positioning\n            - Business development\n            "),
  ("engineer", "\n            Technical professionals focused on:\n            - Technical leadership and architecture\n            - Team management and mentoring\n            - Innovation and product development\n            - Balancing technical depth with leadership\n            - Cross-functional collaboration\n            - Strategic technology decisions\n            "),
  ("lawyer", "\n            Legal professionals focused on:\n            - Case management and client service\n            - Legal strategy and advisory\n            - Team leadership and development\n            - Business development and partnerships\n            - Professional reputation\n            - Work-life balance in demanding field\n            "),
  ("educator", "\n            Educational leaders focused on:\n            - Student outcomes and development\n            - Curriculum design and innovation\n            - Faculty/team management\n            - Institutional leadership\n            - Balancing teaching with administration\n            - Educational technology and methods\n            "),
  ("finance", "\n            Financial professionals focused on:\n            - Financial planning and analysis\n            - Risk management and compliance\n            - Strategic financial decisions\n            - Investor relations and reporting\n            - Team leadership and development\n            - Business partnering with operations\n            ")]

/-- The parameterized paragraph returned for a custom profile
(lines 201-212, with `custom_profile.title()` interpolated). -/
def customProfileContext (custom_profile : String) : String :=
  "\n            " ++ String.mk (asciiTitle custom_profile.data) ++
  " professional focused on:\n            - Professional excellence and leadership in their field\n            - Managing teams and stakeholders effectively\n            - Balancing technical/functional work with strategic leadership\n            - Career growth and board-level positioning\n            - Applying frameworks to their specific domain\n            - Achieving measurable business outcomes\n            \n            Note: Adapt examples to this profession\x27s context where relevant.\n            "

/-- `ProfileDetector.get_profile_context` (lines 100-214).  The dict lookup
uses the table above; the custom branch requires a truthy (nonempty)
`custom_profile`; otherwise the generic one-liner is returned. -/
def get_profile_context (profile : String) (custom_profile : Option String) : String :=
  match PROFILE_CONTEXTS.find? (fun e => e.1 == profile) with
  | some e => e.2
  | none =>
    if profile = "custom" ∧ custom_profile.getD "" ≠ "" then
      customProfileContext (custom_profile.getD "")
    else "Professional focused on leadership and growth"

/-! ## Universal metadata handler (`UniversalMetadataHandler`, lines 295-346) -/

/-- The ordinal-stripping substitution (anchored regex `^\d+\.\s*`
removed): a leading run of digits
followed by a literal dot and any whitespace is removed (only the maximal
digit run can be followed by the dot, so no backtracking subtlety). -/
def stripOrdinal (l : List Char) : List Char :=
  let ds := l.takeWhile isDigitChar
  if ds ≠ [] ∧ (l.drop ds.length).head? = some '.' then
    (l.drop (ds.length + 1)).dropWhile isPySpace
  else l

/-- `UniversalMetadataHandler.extract_clean_filename` (lines 298-303).
Note that `str.replace` deletes every occurrence of `.docx`, `.pdf`, `.txt`
(in that order), not only a trailing extension. -/
def extract_clean_filename (source_file : String) : String :=
  let name := replaceAll ".txt".data (replaceAll ".pdf".data (replaceAll ".docx".data source_file.data))
  String.mk (pyStrip (stripOrdinal name))

/-- A retrieved document: page text plus the metadata keys the source reads
(`metadata.get(...)`); absent keys are `none`. -/
structure Doc where
  page_content : String
  source_file : Option String
  parent_folder : Option String
  session_number : Option Nat
  session_title : Option String
  facilitator : Option String
deriving DecidableEq, Repr

/-- The `ref_info` dictionary built by `get_source_reference`. -/
structure SourceRef where
  source_file : String
  clean_name : String
  parent_folder : String
  type : Option String
  reference_text : Option String
deriving DecidableEq, Repr

/-- Video-indicator substrings of the folder-scoped branch (line 335). -/
def VIDEO_KEYWORDS_FOLDER : List String := ["video", "sawaal", "showcase", "connect", "revision"]

/-- Video-indicator substrings of the general branch (line 341). -/
def VIDEO_KEYWORDS_GENERAL : List String := ["video", "sawaal", "showcase"]

/-- `UniversalMetadataHandler.get_source_reference` (lines 306-346).
`if session_number:` is Python truthiness (present and nonzero);
`if facilitator:` likewise (present and nonempty);
`parent_folder` defaults to the empty string and must differ from
`lms_content` for the folder-scoped branch. -/
def get_source_reference (d : Doc) : SourceRef :=
  let source_file := d.source_file.getD "Unknown"
  let parent_folder := d.parent_folder.getD ""
  let clean_name := extract_clean_filename source_file
  let sfl := source_file.data.map lowerChar
  let base : SourceRef := ⟨source_file, clean_name, parent_folder, none, none⟩
  if d.session_number.getD 0 ≠ 0 then
    { base with
      type := some "session",
      reference_text := some ("For more details, refer to **Session " ++
        toString (d.session_number.getD 0) ++
        (match d.facilitator with
         | some f => if f ≠ "" then " (Facilitator: " ++ f ++ ")" else ""
         | none => "") ++
        "** videos and documentation (PPT/PDF).") }
  else if parent_folder ≠ "" ∧ parent_folder ≠ "lms_content" then
    if VIDEO_KEYWORDS_FOLDER.any (fun kw => occursB kw.data sfl) then
      { base with
        type := some "folder_content",
        reference_text := some ("For more details, visit **" ++ clean_name ++ "** video.") }
    else
      { base with
        type := some "folder_content",
        reference_text := some ("For more details, refer to **" ++ parent_folder ++ " - " ++ clean_name ++ "**.") }
  else
    if VIDEO_KEYWORDS_GENERAL.any (fun kw => occursB kw.data sfl) then
      { base with
        type := some "general",
        reference_text := some ("For more details, visit **" ++ clean_name ++ "** video.") }
    else
      { base with
        type := some "general",
        reference_text := some ("For more details, refer to **" ++ clean_name ++ "**.") }

/-! ## RAG system helpers (`ProfileAwareRAGSystem`, lines 398-502) -/

/-- The `reference_keywords` list of `_is_asking_for_references`
(lines 440-444), in declaration order. -/
def REFERENCE_KEYWORDS : List String :=
  ["source", "reference", "where can i find", "where is this from",
   "which session", "what video", "where to learn more", "more details",
   "show source", "cite", "citation", "what document", "which document"]

/-- `ProfileAwareRAGSystem._is_asking_for_references` (lines 437-445). -/
def is_asking_for_references (question : String) : Bool :=
  let ql := question.data.map lowerChar
  REFERENCE_KEYWORDS.any (fun k => occursB k.data ql)

/-- One conversation turn (a dictionary with question, answer and
timestamp keys). -/
structure Turn where
  question : String
  answer : String
  timestamp : String
deriving DecidableEq, Repr

/-- `ProfileAwareRAGSystem._format_conversation_history` (lines 447-457):
empty history yields the fixed placeholder, otherwise the last 10 turns are
rendered as a `User:` line and an `Assistant:` line (answer cut to 200
characters plus `...`), joined by newlines. -/
def format_conversation_history (h : List Turn) : String :=
  if h.isEmpty then "No previous conversation."
  else
    let recent := h.drop (h.length - 10)
    let formatted := recent.foldl
      (fun acc ex => acc ++ ["User: " ++ ex.question, "Assistant: " ++ ex.answer.take 200 ++ "..."]) []
    String.intercalate "\n" formatted

/-- The `header_parts` list of `_format_docs` (lines 463-485), in the fixed
order source / category / session / facilitator, each omitted when its
metadata is absent or falsy. -/
def docHeaderParts (d : Doc) : List String :=
  (if d.source_file.getD "" ≠ "" then
    ["Source: " ++ extract_clean_filename (d.source_file.getD "")] else []) ++
  (if d.parent_folder.getD "" ≠ "" ∧ d.parent_folder.getD "" ≠ "lms_content" then
    ["Category: " ++ d.parent_folder.getD ""] else []) ++
  (if d.session_number.getD 0 ≠ 0 then
    (if d.session_title.getD "" ≠ "" then
      ["Session " ++ toString (d.session_number.getD 0) ++ ": " ++ d.session_title.getD ""]
     else ["Session " ++ toString (d.session_number.getD 0)]) else []) ++
  (match d.facilitator with
   | some f => if f ≠ "" then ["Facilitator: " ++ f] else []
   | none => [])

/-- `ProfileAwareRAGSystem._format_docs` (lines 459-493). -/
def format_docs (docs : List Doc) : String :=
  String.intercalate "\n\n---\n\n" (docs.map (fun d =>
    match docHeaderParts d with
    | [] => d.page_content
    | parts => "[" ++ String.intercalate " | " parts ++ "]\n" ++ d.page_content))

/-- `ProfileAwareRAGSystem._get_primary_source_reference` (lines 495-502):
`none` on an empty list, otherwise the reference text of the first
(highest-ranked) document. -/
def primarySourceReference (docs : List Doc) : Option String :=
  match docs with
  | [] => none
  | d :: _ => (get_source_reference d).reference_text

/-! ## Answer post-processing (`ask` STEP 6, lines 589-602) -/

/-- Triggers of the pattern `📺?\s*Related Video Resources:.*?$` (lowered). -/
def BOILER_TRIGGER_1 : List (List Char) := ["related video resources:".data]

/-- Triggers of the pattern `📺?\s*For (?:more|further) details.*?$` (lowered). -/
def BOILER_TRIGGER_2 : List (List Char) := ["for more details".data, "for further details".data]

/-- Triggers of the pattern `📚?\s*For more details.*?$` (lowered). -/
def BOILER_TRIGGER_3 : List (List Char) := ["for more details".data]

/-- Remove one trailing emoji character, as consumed by the optional
`📺?`/`📚?` at the front of the boilerplate patterns. -/
def dropTrailEmoji (e : Char) (l : List Char) : List Char :=
  if l.getLast? = some e then l.dropLast else l

/-- One step of the STEP 6 loop: a re.sub of the pattern by the empty
string under DOTALL and IGNORECASE, followed by a strip.  With `.*?$` (DOTALL) the leftmost match extends to the end of the
string (a lone trailing newline that `$` leaves behind falls to `strip`), so
the step cuts at the leftmost case-insensitive trigger, removes the trailing
whitespace run the pattern's `\s*` absorbed, removes the single optional
emoji in front of it, and strips the result. -/
def cutStrip (e : Char) (ts : List (List Char)) (s : List Char) : List Char :=
  match findOccAny ts (s.map lowerChar) with
  | none => pyStrip s
  | some i => pyStrip (dropTrailEmoji e (pyStripRight (s.take i)))

/-- The three boilerplate substitutions applied in order (lines 589-596). -/
def stripBoilerplate (s : List Char) : List Char :=
  cutStrip '📚' BOILER_TRIGGER_3 (cutStrip '📺' BOILER_TRIGGER_2 (cutStrip '📺' BOILER_TRIGGER_1 s))

/-- Python truthiness of the `source_ref` optional string. -/
def refTruthy : Option String → Bool
  | some r => r ≠ ""
  | none => false

/-- STEP 6 of `ask` (lines 589-602): strip boilerplate, append the citation
only when the question asks for references and a (truthy) primary reference
exists, collapse newline runs and strip. -/
def postProcessAnswer (raw : String) (question : String) (source_ref : Option String) : String :=
  let a1 := stripBoilerplate raw.data
  let a2 := if is_asking_for_references question && refTruthy source_ref then
      a1 ++ ("\n\n📚 " ++ source_ref.getD "").data
    else a1
  String.mk (pyStrip (collapse a2))

/-! ## Profile-context blocks built by the orchestrator (lines 525-553 and 650-669) -/

/-- `str(e)` of the `AttributeError` raised by `custom_prof.UPPER()` at
line 539 of the source: Python strings have `upper`, not `UPPER`, so the
synchronous `ask` cannot build the profile-context block for any custom
profile. -/
def upperAttributeError : String := "\x27str\x27 object has no attribute \x27UPPER\x27"

/-- `profile_name.upper().replace('_', ' ')`. -/
def nameUpper (p : String) : String :=
  String.mk ((p.data.map upperChar).map (fun c => if c = '_' then ' ' else c))

/-- The profile-context block of the synchronous `ask` (lines 525-553).
For a custom profile the f-string evaluates `custom_prof.UPPER()` first and
raises `AttributeError`; for a named profile and for no detection the block
is built successfully. -/
def buildProfileContext (info : Option Detection) : Except String String :=
  match info with
  | none => .ok "USER PROFILE: General professional\nProvide general examples from the context."
  | some d =>
    if d.profile = "custom" then .error upperAttributeError
    else .ok ("\nUSER PROFILE DETECTED: " ++ nameUpper d.profile ++
      "\nProfile Context: " ++ get_profile_context d.profile none ++
      "\n\nIMPORTANT: Personalize examples for this profile while keeping the core framework intact!\n")

/-- The profile-context block of `ask_stream` (lines 650-669); here the
custom branch correctly calls `custom_prof.upper()`, so the block is total. -/
def streamProfileContext (info : Option Detection) : String :=
  match info with
  | none => "USER PROFILE: General professional"
  | some d =>
    if d.profile = "custom" then
      "\nUSER PROFILE DETECTED: " ++ String.mk ((d.custom_profile.getD "").data.map upperChar) ++
      "\nProfile Context: " ++ get_profile_context d.profile (some (d.custom_profile.getD "")) ++
      "\nIMPORTANT: Personalize examples for this profession!\n"
    else
      "\nUSER PROFILE DETECTED: " ++ nameUpper d.profile ++
      "\nProfile Context: " ++ get_profile_context d.profile none ++
      "\nIMPORTANT: Personalize examples for this profile!\n"

/-! ## Session-filtered retrieval (lines 556-564 and 672-680) -/

/-- Attempt of `session\s+(\d+)` at a fixed position: the literal, at least
one whitespace character, then a maximal nonempty digit run. -/
def sessionMatchAt (l : List Char) : Option Nat :=
  if leadsB "session".data l then
    let r := l.drop 7
    let w := r.takeWhile isPySpace
    if w = [] then none
    else
      let ds := (r.drop w.length).takeWhile isDigitChar
      if ds = [] then none else some (digitsToNat ds)
  else none

/-- The re.search of `session\s+(\d+)` on the lowered question: leftmost
full match;
positions where only the literal matches are skipped. -/
def searchSessionNum : List Char → Option Nat
  | [] => sessionMatchAt []
  | c :: cs =>
    match sessionMatchAt (c :: cs) with
    | some n => some n
    | none => searchSessionNum cs

/-! ## Metrics (lines 426-431, 611-620, 722-731, 736-751) -/

/-- One entry of the metrics query log. -/
structure QueryLog where
  timestamp : String
  question : String
  profile : String
  latency : ℚ
deriving DecidableEq, Repr

/-- `self.metrics` (query log latencies and total latency as exact
rationals standing for the Python floats). -/
structure Metrics where
  query_count : Nat
  total_latency : ℚ
  profile_detected_count : Nat
  queries : List QueryLog
deriving DecidableEq, Repr

/-- The metrics dictionary as initialized in `__init__` (lines 426-431). -/
def initialMetrics : Metrics := ⟨0, 0, 0, []⟩

/-- The increment of `profile_detected_count` performed right after
detection (line 534 in `ask`, line 654 in `ask_stream`) — before retrieval
and generation, so it also happens on queries that later fail. -/
def bumpDetected (info : Option Detection) (m : Metrics) : Metrics :=
  match info with
  | some _ => { m with profile_detected_count := m.profile_detected_count + 1 }
  | none => m

/-- The profile label recorded in the query log: the detection result when
present, else the general label. -/
def profileLabel : Option Detection → String
  | some d => d.profile
  | none => "general"

/-- The question cut to 50 characters plus an ellipsis, as logged. -/
def questionLog (q : String) : String := q.take 50 ++ "..."

/-- The end-of-query metrics update (lines 611-620 / 722-731). -/
def completeMetrics (m : Metrics) (now : String) (q : String)
    (info : Option Detection) (lat : ℚ) : Metrics :=
  { m with
    query_count := m.query_count + 1,
    total_latency := m.total_latency + lat,
    queries := m.queries ++ [⟨now, questionLog q, profileLabel info, lat⟩] }

/-! ## The synchronous orchestrator `ask` (lines 504-633) -/

/-- The dictionary returned by `ask`. -/
structure AskResult where
  answer : String
  updated_history : List Turn
deriving DecidableEq, Repr

/-- Outcomes of the external services for one synchronous query: the
session-filtered `similarity_search`, the MMR `retriever.invoke`, the
generation chain (as a function of the four interpolated blocks: context,
profile context, formatted history, question), and the wall-clock readings. -/
structure AskOracle where
  similaritySearchFiltered : Nat → Except String (List Doc)
  retrieverInvoke : Except String (List Doc)
  generate : String → String → String → String → Except String String
  now : String
  latency : ℚ

/-- STEP 2 of `ask` (lines 556-564): filtered similarity search when the
question mentions `session <N>`, the MMR retriever otherwise. -/
def retrieveOutcome (o : AskOracle) (question : String) : Except String (List Doc) :=
  match searchSessionNum (question.data.map lowerChar) with
  | some n => o.similaritySearchFiltered n
  | none => o.retrieverInvoke

/-- `ProfileAwareRAGSystem.ask` (lines 504-633).  The `try` block runs
detection (total), the detection-count bump, the profile-context build
(which raises for custom profiles, line 539), retrieval, reference and
context assembly, generation, post-processing, the history append and the
completion metrics; any failure falls to the `except` handler, which
returns the error-marked answer with the history exactly as supplied. -/
def ask (o : AskOracle) (question : String) (conversation_history : List Turn)
    (m : Metrics) : AskResult × Metrics :=
  let profile_info := detect_profile question
  let m1 := bumpDetected profile_info m
  match buildProfileContext profile_info with
  | .error e => (⟨"⚠️ Error: " ++ e, conversation_history⟩, m1)
  | .ok profile_context =>
    match retrieveOutcome o question with
    | .error e => (⟨"⚠️ Error: " ++ e, conversation_history⟩, m1)
    | .ok retrieved_docs =>
      let source_ref := primarySourceReference retrieved_docs
      let context := format_docs retrieved_docs
      match o.generate context profile_context (format_conversation_history conversation_history) question with
      | .error e => (⟨"⚠️ Error: " ++ e, conversation_history⟩, m1)
      | .ok rawAnswer =>
        let answer := postProcessAnswer rawAnswer question source_ref
        let updated := conversation_history ++ [⟨question, answer, o.now⟩]
        (⟨answer, updated⟩, completeMetrics m1 o.now question profile_info o.latency)

/-! ## The streaming orchestrator `ask_stream` (lines 635-734) -/

/-- Outcomes of the external services for one streaming query.  `stream`
returns the chunks the generation chain produced before either finishing
(`none`) or raising mid-iteration (`some e`). -/
structure StreamOracle where
  similaritySearchFiltered : Nat → Except String (List Doc)
  retrieverInvoke : Except String (List Doc)
  stream : String → String → String → String → List String × Option String
  now : String
  latency : ℚ

/-- Retrieval branch of `ask_stream` (lines 672-680). -/
def streamRetrieveOutcome (o : StreamOracle) (question : String) : Except String (List Doc) :=
  match searchSessionNum (question.data.map lowerChar) with
  | some n => o.similaritySearchFiltered n
  | none => o.retrieverInvoke

/-- `ProfileAwareRAGSystem.ask_stream` (lines 635-734), returning the list
of yielded chunks, the internal `updated_history` when it was built (it is
local to the generator and never yielded; only its length travels in the
final marker chunk), and the metrics state.  Falsy (empty) chunks are
neither yielded nor accumulated; on any failure the `except` handler yields
one trailing error chunk and no marker. -/
def ask_stream (o : StreamOracle) (question : String) (conversation_history : List Turn)
    (m : Metrics) : List String × Option (List Turn) × Metrics :=
  let profile_info := detect_profile question
  let m1 := bumpDetected profile_info m
  let profile_context := streamProfileContext profile_info
  match streamRetrieveOutcome o question with
  | .error e => (["\n\n⚠️ Error: " ++ e], none, m1)
  | .ok retrieved_docs =>
    let source_ref := primarySourceReference retrieved_docs
    let context := format_docs retrieved_docs
    let res := o.stream context profile_context (format_conversation_history conversation_history) question
    let yielded := res.1.filter (fun c => c ≠ "")
    match res.2 with
    | some e => (yielded ++ ["\n\n⚠️ Error: " ++ e], none, m1)
    | none =>
      let full_answer := yielded.foldl (· ++ ·) ""
      let citation :=
        if is_asking_for_references question && refTruthy source_ref then
          ["\n\n📚 " ++ source_ref.getD ""]
        else []
      let updated := conversation_history ++ [⟨question, full_answer, o.now⟩]
      (yielded ++ citation ++ ["__HISTORY_UPDATE__:" ++ toString updated.length],
       some updated,
       completeMetrics m1 o.now question profile_info o.latency)

/-! ## `get_metrics` (lines 736-751) -/

/-- Round a nonnegative fraction `num/den` to the nearest integer, ties to
even — the rounding CPython's fixed-point float formatting performs (exact
for every rate whose double computation is exact; the rational model is the
reading of the spec's "rendered to one decimal place"). -/
def roundHalfEvenNat (num den : Nat) : Nat :=
  let q := num / den
  let r := num % den
  if 2 * r < den then q
  else if den < 2 * r then q + 1
  else if q % 2 = 0 then q else q + 1

/-- The one-decimal percent rendering of the detection rate. -/
def formatRatePercent (m n : Nat) : String :=
  let t := roundHalfEvenNat (m * 1000) n
  toString (t / 10) ++ "." ++ toString (t % 10) ++ "%"

/-- Round a nonnegative rational to the nearest integer, ties to even. -/
def roundHalfEvenQ (y : ℚ) : ℤ :=
  let fl := ⌊y⌋
  let fr := y - fl
  if fr < 1/2 then fl else if 1/2 < fr then fl + 1
  else if fl % 2 = 0 then fl else fl + 1

/-- The two-decimal seconds rendering of the latency figures (nonnegative
in this system). -/
def formatSeconds2 (x : ℚ) : String :=
  let n := (roundHalfEvenQ (x * 100)).toNat
  toString (n / 100) ++ "." ++ (if n % 100 < 10 then "0" else "") ++ toString (n % 100) ++ "s"

/-- The dictionary `get_metrics` returns once at least one query completed. -/
structure MetricsReport where
  total_queries : Nat
  profile_detected : Nat
  detection_rate : String
  average_latency : String
  total_time : String
  recent_queries : List QueryLog
deriving DecidableEq, Repr

/-- `ProfileAwareRAGSystem.get_metrics` (lines 736-751).  With
`query_count == 0` the Python returns the raw metrics dictionary — a
differently-shaped value, modelled here as `none`. -/
def get_metrics (m : Metrics) : Option MetricsReport :=
  if m.query_count = 0 then none
  else some {
    total_queries := m.query_count,
    profile_detected := m.profile_detected_count,
    detection_rate := formatRatePercent m.profile_detected_count m.query_count,
    average_latency := formatSeconds2 (m.total_latency / m.query_count),
    total_time := formatSeconds2 m.total_latency,
    recent_queries := m.queries.drop (m.queries.length - 5) }

/-! ## Spec-side definitions

The definitions below follow the wording of spec sentences and are compared
against the source-derived definitions above in refinement theorems. -/

/-- The claim's reading of the detector's regex stage: only the **first** of
the four self-identification regexes that matches is considered, and when
its truncated phrase fails the at-most-3-words acceptance the detector
reports no detection (instead of trying the remaining patterns). -/
def detectProfileFirstMatchSpec (question : String) : Option Detection :=
  let ql := question.data.map lowerChar
  match findKeywordHit PROFILE_KEYWORDS ql with
  | some (p, k) => some ⟨p, none, "high", k⟩
  | none =>
    match PROFESSION_PATTERNS.find? (fun lit => (searchCustom lit ql).isSome) with
    | none => none
    | some lit => tryCustomPattern lit ql

/-- Spec-side keyword stage: first profile in declaration order one of whose
keywords is a substring of the lowered question, as a detection record. -/
def keywordHitSpec (ql : List Char) : Option Detection :=
  PROFILE_KEYWORDS.findSome? (fun pk =>
    (pk.2.find? (fun k => occursB k.data ql)).map (fun k => ⟨pk.1, none, "high", k⟩))

/-- Amended reading of the detector: the keyword stage, and otherwise the
four regexes tried in order where the first one whose truncated, trimmed
phrase is nonempty with at most 3 words yields the custom profile. -/
def detectProfileAmendedSpec (question : String) : Option Detection :=
  let ql := question.data.map lowerChar
  (keywordHitSpec ql).orElse (fun _ =>
    (tryCustomPattern "i am ".data ql).orElse (fun _ =>
      (tryCustomPattern "as ".data ql).orElse (fun _ =>
        (tryCustomPattern "i\x27m ".data ql).orElse (fun _ =>
          tryCustomPattern "working as ".data ql))))

/-- Spec-side reference text for the folder-scoped and general kinds
(spec 4.2, evaluated when the session kind does not apply). -/
def referenceTextFolderSpec (d : Doc) : String :=
  let source_file := d.source_file.getD "Unknown"
  let folder := d.parent_folder.getD ""
  let name := extract_clean_filename source_file
  if folder ≠ "" ∧ folder ≠ "lms_content" then
    if VIDEO_KEYWORDS_FOLDER.any (fun kw => occursB kw.data (source_file.data.map lowerChar)) then
      "For more details, visit **" ++ name ++ "** video."
    else "For more details, refer to **" ++ folder ++ " - " ++ name ++ "**."
  else
    if VIDEO_KEYWORDS_GENERAL.any (fun kw => occursB kw.data (source_file.data.map lowerChar)) then
      "For more details, visit **" ++ name ++ "** video."
    else "For more details, refer to **" ++ name ++ "**."

/-- Spec-side reference text (spec 4.2): decision evaluated in order
session → folder-scoped → general, first match wins, using only the
document's own metadata. -/
def referenceTextSpec (d : Doc) : String :=
  match d.session_number with
  | some n =>
    if n ≠ 0 then
      "For more details, refer to **Session " ++ toString n ++
      (match d.facilitator with
       | some f => if f ≠ "" then " (Facilitator: " ++ f ++ ")" else ""
       | none => "") ++ "** videos and documentation (PPT/PDF)."
    else referenceTextFolderSpec d
  | none => referenceTextFolderSpec d

/-- The claim's reading of the clean-filename rule: strip the extension
suffix for whichever of the three known document types the name ends with,
then the ordinal prefix, then trim. -/
def stripExtSuffix (l : List Char) : List Char :=
  if leadsB ".docx".data.reverse l.reverse then l.take (l.length - 5)
  else if leadsB ".pdf".data.reverse l.reverse then l.take (l.length - 4)
  else if leadsB ".txt".data.reverse l.reverse then l.take (l.length - 4)
  else l

/-- Claim-side clean-filename (suffix semantics), for comparison with the
source's global `str.replace`. -/
def cleanFilenameSuffixSpec (s : String) : String :=
  String.mk (pyStrip (stripOrdinal (stripExtSuffix s.data)))

/-- Fuelled splitter mirroring `replaceAllF`: the parts of the list between
the left-to-right non-overlapping occurrences of `pat`. -/
def splitOnListF (pat : List Char) : Nat → List Char → List (List Char)
  | _, [] => [[]]
  | 0, l => [l]
  | fuel + 1, c :: cs =>
    if pat ≠ [] ∧ leadsB pat (c :: cs)
    then [] :: splitOnListF pat fuel (List.drop (pat.length - 1) cs)
    else
      let r := splitOnListF pat fuel cs
      (c :: r.headI) :: r.tail

/-- Split of a list at the occurrences of `pat`. -/
def splitOnList (pat l : List Char) : List (List Char) :=
  splitOnListF pat l.length l

/-- Amended clean-filename: delete every occurrence of `.docx`, then of
`.pdf`, then of `.txt` (expressed as split-and-rejoin), strip a leading
digits-dot-whitespace ordinal, trim. -/
def cleanFilenameAmendedSpec (s : String) : String :=
  let n1 := (splitOnList ".docx".data s.data).flatten
  let n2 := (splitOnList ".pdf".data n1).flatten
  let n3 := (splitOnList ".txt".data n2).flatten
  String.mk (pyStrip (stripOrdinal n3))

/-- Spec-side conversation-history rendering: last 10 turns in original
order, two lines per turn, newline-joined. -/
def historyRenderSpec (h : List Turn) : String :=
  if h = [] then "No previous conversation."
  else String.intercalate "\n" ((h.drop (h.length - 10)).flatMap
    (fun e => ["User: " ++ e.question, "Assistant: " ++ e.answer.take 200 ++ "..."]))

/-! ## Concrete fixtures for closed theorems and witnesses -/

/-- A query input for the metrics run: the per-query oracle, question and
session history. -/
structure QueryInput where
  oracle : AskOracle
  question : String
  history : List Turn

/-- Fold a sequence of queries through `ask`, threading the metrics state. -/
def runQueries (inputs : List QueryInput) (m : Metrics) : Metrics :=
  inputs.foldl (fun acc x => (ask x.oracle x.question x.history acc).2) m

/-- Whether one synchronous query runs to completion: the profile-context
build, the retrieval and the generation all succeed. -/
def askOk (x : QueryInput) : Bool :=
  match buildProfileContext (detect_profile x.question) with
  | .error _ => false
  | .ok pc =>
    match retrieveOutcome x.oracle x.question with
    | .error _ => false
    | .ok docs =>
      match x.oracle.generate (format_docs docs) pc
          (format_conversation_history x.history) x.question with
      | .ok _ => true
      | .error _ => false

/-- An oracle whose services all succeed (empty retrieval, fixed answer). -/
def benignAskOracle : AskOracle :=
  ⟨fun _ => .ok [], .ok [], fun _ _ _ _ => .ok "fine answer", "t0", 0⟩

/-- An oracle whose retrieval fails. -/
def failingRetrievalOracle : AskOracle :=
  ⟨fun _ => .error "retrieval down", .error "retrieval down",
   fun _ _ _ _ => .ok "fine answer", "t0", 0⟩

/-- An oracle whose generation fails. -/
def failingGenerationOracle : AskOracle :=
  ⟨fun _ => .ok [], .ok [], fun _ _ _ _ => .error "model down", "t0", 0⟩

/-- A streaming oracle whose retrieval fails. -/
def failingRetrievalStreamOracle : StreamOracle :=
  ⟨fun _ => .error "retrieval down", .error "retrieval down",
   fun _ _ _ _ => (["a"], none), "t0", 0⟩

/-- A streaming oracle that yields two chunks and then raises. -/
def midFailStreamOracle : StreamOracle :=
  ⟨fun _ => .ok [], .ok [], fun _ _ _ _ => (["Hello ", "", "world"], some "model down"), "t0", 0⟩

/-- A streaming oracle that yields three chunks (one falsy) and finishes. -/
def okStreamOracle : StreamOracle :=
  ⟨fun _ => .ok [], .ok [], fun _ _ _ _ => (["Hello ", "", "world"], none), "t0", 0⟩

/-- Inputs for the metrics witness: two completing queries, the first with a
detected profile, the second without. -/
def c5WitnessInputs : List QueryInput :=
  [⟨benignAskOracle, "I am a doctor, help", []⟩, ⟨benignAskOracle, "hello", []⟩]

/-! ## Lemmas: initial segments and occurrences -/

theorem leadsB_iff : ∀ (t s : List Char), leadsB t s = true ↔ leads t s
  | [], s => by simp [leadsB, leads]
  | a :: as, [] => by
    simp only [leadsB, leads, Bool.false_eq_true, false_iff]
    rintro ⟨r, h⟩
    exact absurd h (by simp)
  | a :: as, b :: bs => by
    simp only [leadsB, Bool.and_eq_true, beq_iff_eq, leadsB_iff as bs, leads]
    constructor
    · rintro ⟨rfl, r, rfl⟩
      exact ⟨r, rfl⟩
    · rintro ⟨r, h⟩
      rw [List.cons_append] at h
      injection h with h1 h2
      exact ⟨h1.symm, r, h2⟩

theorem leads_length {t s : List Char} (h : leads t s) : t.length ≤ s.length := by
  obtain ⟨r, rfl⟩ := h
  simp

theorem leads_nil {t : List Char} (h : leads t []) : t = [] := by
  obtain ⟨r, hr⟩ := h
  exact List.append_eq_nil.mp hr.symm |>.1

theorem leads_refl_append (t r : List Char) : leads t (t ++ r) := ⟨r, rfl⟩

theorem leads_trans_append {t u : List Char} (w : List Char) (h : leads t u) :
    leads t (u ++ w) := by
  obtain ⟨r, rfl⟩ := h
  exact ⟨r ++ w, by simp⟩

theorem occurs_iff_exists_drop {t s : List Char} :
    occurs t s ↔ ∃ i, leads t (s.drop i) := by
  constructor
  · rintro ⟨a, b, rfl⟩
    refine ⟨a.length, b, ?_⟩
    rw [List.append_assoc, List.drop_left]
  · rintro ⟨i, r, hr⟩
    exact ⟨s.take i, r, by rw [List.append_assoc, ← hr, List.take_append_drop]⟩

theorem occurs_of_leads {t s : List Char} (h : leads t s) : occurs t s := by
  obtain ⟨r, rfl⟩ := h
  exact ⟨[], r, rfl⟩

theorem occurs_cons_iff {t : List Char} {c : Char} {u : List Char} :
    occurs t (c :: u) ↔ leads t (c :: u) ∨ occurs t u := by
  constructor
  · rintro ⟨a, b, h⟩
    cases a with
    | nil => exact Or.inl ⟨b, by simpa using h⟩
    | cons x xs =>
      rw [List.cons_append, List.cons_append] at h
      injection h with h1 h2
      exact Or.inr ⟨xs, b, h2⟩
  · rintro (⟨r, hr⟩ | ⟨a, b, rfl⟩)
    · exact ⟨[], r, by simpa using hr⟩
    · exact ⟨c :: a, b, rfl⟩

theorem occurs_nil_iff {t : List Char} : occurs t ([] : List Char) ↔ t = [] := by
  constructor
  · rintro ⟨a, b, h⟩
    have := List.append_eq_nil.mp h.symm
    exact (List.append_eq_nil.mp this.1).2
  · rintro rfl
    exact ⟨[], [], rfl⟩

/-- An occurrence inside a contiguous segment is an occurrence in the whole. -/
theorem occurs_of_segment {t u s : List Char} (hseg : ∃ x y, s = x ++ u ++ y)
    (h : occurs t u) : occurs t s := by
  obtain ⟨x, y, rfl⟩ := hseg
  obtain ⟨a, b, rfl⟩ := h
  exact ⟨x ++ a, b ++ y, by simp⟩

/-- Absence of an occurrence passes to contiguous segments. -/
theorem not_occurs_segment {t u s : List Char} (hseg : ∃ x y, s = x ++ u ++ y)
    (h : ¬ occurs t s) : ¬ occurs t u :=
  fun hu => h (occurs_of_segment hseg hu)

theorem segment_map {u s : List Char} (f : Char → Char) (hseg : ∃ x y, s = x ++ u ++ y) :
    ∃ x y, s.map f = x ++ u.map f ++ y := by
  obtain ⟨x, y, rfl⟩ := hseg
  exact ⟨x.map f, y.map f, by simp⟩

theorem segment_trans {u v s : List Char} (h1 : ∃ x y, s = x ++ v ++ y)
    (h2 : ∃ x y, v = x ++ u ++ y) : ∃ x y, s = x ++ u ++ y := by
  obtain ⟨x, y, rfl⟩ := h1
  obtain ⟨x2, y2, rfl⟩ := h2
  exact ⟨x ++ x2, y2 ++ y, by simp⟩

/-! ## Lemmas: `findOccAny` -/

theorem findOccAny_none {ts : List (List Char)} :
    ∀ {s : List Char}, findOccAny ts s = none → ∀ t ∈ ts, ¬ occurs t s
  | [], h => by
    intro t ht hocc
    rw [occurs_nil_iff] at hocc
    subst hocc
    simp only [findOccAny] at h
    rw [if_pos] at h
    · exact Option.noConfusion h
    · exact List.any_eq_true.mpr ⟨[], ht, rfl⟩
  | c :: cs, h => by
    intro t ht hocc
    simp only [findOccAny] at h
    split at h
    · exact Option.noConfusion h
    · next hany =>
      rcases occurs_cons_iff.mp hocc with hl | ho
      · exact hany (List.any_eq_true.mpr ⟨t, ht, (leadsB_iff t (c :: cs)).mpr hl⟩)
      · have hnone : findOccAny ts cs = none := by
          cases hh : findOccAny ts cs with
          | none => rfl
          | some j => rw [hh] at h; exact Option.noConfusion h
        exact findOccAny_none hnone t ht ho

theorem findOccAny_eq_none {ts : List (List Char)} :
    ∀ {s : List Char}, (∀ t ∈ ts, ¬ occurs t s) → findOccAny ts s = none
  | [], h => by
    simp only [findOccAny]
    rw [if_neg]
    intro hany
    obtain ⟨t, ht, hlb⟩ := List.any_eq_true.mp hany
    have : t = [] := leads_nil ((leadsB_iff t []).mp hlb)
    exact h t ht (by rw [this]; exact occurs_of_leads ⟨[], rfl⟩)
  | c :: cs, h => by
    have h1 : findOccAny ts cs = none :=
      findOccAny_eq_none (fun t ht hocc => h t ht (occurs_cons_iff.mpr (Or.inr hocc)))
    have hneg : ¬ ts.any (fun t => leadsB t (c :: cs)) = true := by
      intro hany
      obtain ⟨t, ht, hlb⟩ := List.any_eq_true.mp hany
      exact h t ht (occurs_of_leads ((leadsB_iff t (c :: cs)).mp hlb))
    simp only [findOccAny]
    rw [if_neg hneg, h1]
    rfl

/-- Before the leftmost trigger position, no (nonempty) trigger occurs. -/
theorem findOccAny_some_take {ts : List (List Char)} (hts : ∀ t ∈ ts, t ≠ []) :
    ∀ {s : List Char} {i : Nat}, findOccAny ts s = some i →
      ∀ t ∈ ts, ¬ occurs t (s.take i)
  | [], i, h => by
    intro t ht hocc
    rw [List.take_nil] at hocc
    exact hts t ht (occurs_nil_iff.mp hocc)
  | c :: cs, i, h => by
    intro t ht hocc
    simp only [findOccAny] at h
    split at h
    · injection h with h0
      subst h0
      rw [List.take_zero] at hocc
      exact hts t ht (occurs_nil_iff.mp hocc)
    · next hany =>
      cases hh : findOccAny ts cs with
      | none => rw [hh] at h; exact Option.noConfusion h
      | some j =>
        rw [hh] at h
        injection h with h0
        subst h0
        rw [List.take_succ_cons] at hocc
        rcases occurs_cons_iff.mp hocc with hl | ho
        · refine hany (List.any_eq_true.mpr ⟨t, ht, (leadsB_iff t (c :: cs)).mpr ?_⟩)
          have : (c :: cs.take j) ++ cs.drop j = c :: cs := by
            simp [List.take_append_drop]
          rw [← this]
          exact leads_trans_append _ hl
        · exact findOccAny_some_take hts hh t ht ho

/-! ## Lemmas: stripping -/

theorem pyStripLeft_segment (s : List Char) : ∃ x, s = x ++ pyStripLeft s :=
  ⟨s.takeWhile isPySpace, (List.takeWhile_append_dropWhile (p := isPySpace) (l := s)).symm⟩

theorem pyStripRight_segment (s : List Char) : ∃ y, s = pyStripRight s ++ y := by
  refine ⟨(s.reverse.takeWhile isPySpace).reverse, ?_⟩
  rw [pyStripRight, ← List.reverse_append, List.takeWhile_append_dropWhile, List.reverse_reverse]

theorem pyStrip_segment (s : List Char) : ∃ x y, s = x ++ pyStrip s ++ y := by
  obtain ⟨y, hy⟩ := pyStripRight_segment s
  obtain ⟨x, hx⟩ := pyStripLeft_segment (pyStripRight s)
  refine ⟨x, y, ?_⟩
  conv_lhs => rw [hy]
  rw [hx]
  simp [pyStrip, List.append_assoc]

theorem dropWhile_head_not {p : Char → Bool} :
    ∀ {s : List Char} {c : Char}, (s.dropWhile p).head? = some c → p c = false
  | [], c, h => by simp [List.dropWhile] at h
  | a :: as, c, h => by
    rw [List.dropWhile_cons] at h
    split at h
    · exact dropWhile_head_not h
    · next hpa =>
      rw [List.head?_cons] at h
      injection h with h0
      subst h0
      exact Bool.not_eq_true _ ▸ (by simpa using hpa)

theorem dropWhile_eq_self_of_head {p : Char → Bool} {s : List Char}
    (h : ∀ c ∈ s.head?, p c = false) : s.dropWhile p = s := by
  cases s with
  | nil => rfl
  | cons a as =>
    rw [List.dropWhile_cons, if_neg]
    simp only [List.head?_cons, Option.mem_def, Option.some.injEq] at h
    rw [h a rfl]
    simp

theorem pyStripLeft_head (s : List Char) :
    ∀ c ∈ (pyStripLeft s).head?, isPySpace c = false :=
  fun c hc => dropWhile_head_not (Option.mem_def.mp hc)

theorem pyStripRight_getLast (s : List Char) :
    ∀ c ∈ (pyStripRight s).getLast?, isPySpace c = false := by
  intro c hc
  rw [pyStripRight, List.getLast?_reverse] at hc
  exact dropWhile_head_not (Option.mem_def.mp hc)

theorem pyStripLeft_eq_self {s : List Char}
    (h : ∀ c ∈ s.head?, isPySpace c = false) : pyStripLeft s = s :=
  dropWhile_eq_self_of_head h

theorem pyStripRight_eq_self {s : List Char}
    (h : ∀ c ∈ s.getLast?, isPySpace c = false) : pyStripRight s = s := by
  rw [pyStripRight, dropWhile_eq_self_of_head, List.reverse_reverse]
  intro c hc
  exact h c (by rwa [List.head?_reverse] at hc)

theorem pyStripLeft_getLast {s : List Char} :
    ∀ c ∈ (pyStripLeft s).getLast?, c ∈ s.getLast? := by
  intro c hc
  obtain ⟨x, hx⟩ := pyStripLeft_segment s
  rw [hx, List.getLast?_append_of_ne_nil]
  · exact hc
  · intro hnil
    rw [hnil] at hc
    simp at hc

theorem pyStripRight_head {s : List Char} :
    ∀ c ∈ (pyStripRight s).head?, c ∈ s.head? := by
  intro c hc
  obtain ⟨y, hy⟩ := pyStripRight_segment s
  rw [hy, List.head?_append_of_ne_nil]
  · exact hc
  · intro hnil
    rw [hnil] at hc
    simp at hc

theorem pyStrip_head (s : List Char) :
    ∀ c ∈ (pyStrip s).head?, isPySpace c = false :=
  pyStripLeft_head (pyStripRight s)

theorem pyStrip_getLast (s : List Char) :
    ∀ c ∈ (pyStrip s).getLast?, isPySpace c = false := by
  intro c hc
  exact pyStripRight_getLast s c (pyStripLeft_getLast c hc)

theorem pyStrip_eq_self {s : List Char}
    (h1 : ∀ c ∈ s.head?, isPySpace c = false)
    (h2 : ∀ c ∈ s.getLast?, isPySpace c = false) : pyStrip s = s := by
  rw [pyStrip, pyStripRight_eq_self h2, pyStripLeft_eq_self h1]

theorem pyStrip_idem (s : List Char) : pyStrip (pyStrip s) = pyStrip s :=
  pyStrip_eq_self (pyStrip_head s) (pyStrip_getLast s)

/-! ## Lemmas: `collapse` -/

theorem collapse_cons_of_not {c : Char} {cs : List Char}
    (h : ¬ (c = '\n' ∧ cs.head? = some '\n' ∧ cs.tail.head? = some '\n')) :
    collapse (c :: cs) = c :: collapse cs := by
  rw [collapse, if_neg h]

theorem collapse_cons_of_triple {c : Char} {cs : List Char}
    (h : c = '\n' ∧ cs.head? = some '\n' ∧ cs.tail.head? = some '\n') :
    collapse (c :: cs) = collapse cs := by
  rw [collapse, if_pos h]

theorem collapse_of_no_newline : ∀ {s : List Char}, '\n' ∉ s → collapse s = s
  | [], _ => rfl
  | c :: cs, h => by
    have hc : c ≠ '\n' := fun hceq => h (hceq ▸ List.mem_cons_self c cs)
    rw [collapse_cons_of_not (fun hand => hc hand.1),
      collapse_of_no_newline (fun hm => h (List.mem_cons_of_mem c hm))]

theorem collapse_ne_nil : ∀ {s : List Char}, s ≠ [] → collapse s ≠ []
  | [], h => absurd rfl h
  | c :: cs, _ => by
    by_cases htrip : c = '\n' ∧ cs.head? = some '\n' ∧ cs.tail.head? = some '\n'
    · rw [collapse_cons_of_triple htrip]
      have : cs ≠ [] := by
        intro hnil
        rw [hnil] at htrip
        simp at htrip
      exact collapse_ne_nil this
    · rw [collapse_cons_of_not htrip]
      simp

theorem collapse_head_newline :
    ∀ {s : List Char}, s.head? = some '\n' → (collapse s).head? = some '\n'
  | [], h => by simp at h
  | c :: cs, h => by
    rw [List.head?_cons] at h
    injection h with h0
    subst h0
    by_cases htrip : ('\n' : Char) = '\n' ∧ cs.head? = some '\n' ∧ cs.tail.head? = some '\n'
    · rw [collapse_cons_of_triple htrip]
      exact collapse_head_newline htrip.2.1
    · rw [collapse_cons_of_not htrip]
      simp

theorem collapse_head_of_ne {s : List Char} {c : Char} (h : s.head? = some c)
    (hc : c ≠ '\n') : (collapse s).head? = some c := by
  cases s with
  | nil => simp at h
  | cons a as =>
    rw [List.head?_cons] at h
    injection h with h0
    subst h0
    rw [collapse_cons_of_not (fun hand => hc hand.1)]
    simp

theorem collapse_head? : ∀ (s : List Char), (collapse s).head? = s.head?
  | [] => rfl
  | c :: cs => by
    by_cases htrip : c = '\n' ∧ cs.head? = some '\n' ∧ cs.tail.head? = some '\n'
    · rw [collapse_cons_of_triple htrip, collapse_head? cs, htrip.2.1, List.head?_cons, htrip.1]
    · rw [collapse_cons_of_not htrip]
      simp

theorem lowerChar_newline : lowerChar '\n' = '\n' := by decide

/-- A newline-free word that starts the lower-cased collapsed list also
starts the lower-cased original. -/
theorem collapse_leads_rev {t : List Char} (ht : '\n' ∉ t) :
    ∀ {s : List Char}, leads t ((collapse s).map lowerChar) → leads t (s.map lowerChar)
  | [], h => h
  | c :: cs, h => by
    by_cases htrip : c = '\n' ∧ cs.head? = some '\n' ∧ cs.tail.head? = some '\n'
    · rw [collapse_cons_of_triple htrip] at h
      cases t with
      | nil => exact ⟨_, rfl⟩
      | cons d t' =>
        exfalso
        have hhead : ((collapse cs).map lowerChar).head? = some '\n' := by
          rw [List.head?_map, collapse_head?, htrip.2.1]
          simp [lowerChar_newline]
        obtain ⟨r, hr⟩ := h
        rw [hr, List.cons_append, List.head?_cons] at hhead
        injection hhead with h0
        exact ht (h0 ▸ List.mem_cons_self d t')
    · rw [collapse_cons_of_not htrip, List.map_cons] at h
      cases t with
      | nil => exact ⟨_, rfl⟩
      | cons d t' =>
        obtain ⟨r, hr⟩ := h
        rw [List.cons_append] at hr
        injection hr with h1 h2
        have ht' : '\n' ∉ t' := fun hm => ht (List.mem_cons_of_mem d hm)
        obtain ⟨r', hr'⟩ := collapse_leads_rev ht' (s := cs) ⟨r, h2⟩
        exact ⟨r', by rw [List.map_cons, ← h1, hr', List.cons_append]⟩

/-- A newline-free word occurring in the lower-cased collapsed list also
occurs in the lower-cased original. -/
theorem collapse_occurs_rev {t : List Char} (ht : '\n' ∉ t) :
    ∀ {s : List Char}, occurs t ((collapse s).map lowerChar) → occurs t (s.map lowerChar)
  | [], h => h
  | c :: cs, h => by
    by_cases htrip : c = '\n' ∧ cs.head? = some '\n' ∧ cs.tail.head? = some '\n'
    · rw [collapse_cons_of_triple htrip] at h
      have := collapse_occurs_rev ht (s := cs) h
      rw [List.map_cons]
      exact occurs_cons_iff.mpr (Or.inr this)
    · rw [collapse_cons_of_not htrip, List.map_cons] at h
      rw [List.map_cons]
      rcases occurs_cons_iff.mp h with hl | ho
      · cases t with
        | nil => exact occurs_cons_iff.mpr (Or.inl ⟨_, rfl⟩)
        | cons d t' =>
          obtain ⟨r, hr⟩ := hl
          rw [List.cons_append] at hr
          injection hr with h1 h2
          have ht' : '\n' ∉ t' := fun hm => ht (List.mem_cons_of_mem d hm)
          obtain ⟨r', hr'⟩ := collapse_leads_rev ht' (s := cs) ⟨r, h2⟩
          exact occurs_cons_iff.mpr (Or.inl ⟨r', by rw [← h1, hr', List.cons_append]⟩)
      · exact occurs_cons_iff.mpr (Or.inr (collapse_occurs_rev ht (s := cs) ho))

theorem collapse_no_three : ∀ (s : List Char), ¬ occurs ['\n', '\n', '\n'] (collapse s)
  | [] => by
    intro h
    exact List.noConfusion (occurs_nil_iff.mp (by simpa [collapse] using h))
  | c :: cs => by
    by_cases htrip : c = '\n' ∧ cs.head? = some '\n' ∧ cs.tail.head? = some '\n'
    · rw [collapse_cons_of_triple htrip]
      exact collapse_no_three cs
    · rw [collapse_cons_of_not htrip]
      intro h
      rcases occurs_cons_iff.mp h with hl | ho
      · obtain ⟨r, hr⟩ := hl
        rw [List.cons_append] at hr
        injection hr with h1 h2
        simp only [List.cons_append, List.nil_append] at h2
        -- now h2 : collapse cs = '\n' :: '\n' :: r
        apply htrip
        refine ⟨h1, ?_, ?_⟩
        · rw [← collapse_head? cs, h2]
          rfl
        · -- the second newline of `collapse cs` forces one in `cs.tail`
          cases cs with
          | nil => simp [collapse] at h2
          | cons y ys =>
            have hy : y = '\n' := by
              have hh := collapse_head? (y :: ys)
              rw [h2] at hh
              simp only [List.head?_cons] at hh
              injection hh with h3
              exact h3.symm
            subst hy
            show ys.head? = some '\n'
            cases ys with
            | nil =>
              rw [show collapse ['\n'] = ['\n'] by
                rw [collapse_cons_of_not (by simp)]; rfl] at h2
              injection h2 with h3 h4
              exact List.noConfusion h4
            | cons z zs =>
              by_cases hz : z = '\n'
              · rw [List.head?_cons, hz]
              · exfalso
                have hguard : ¬ (('\n' : Char) = '\n' ∧ (z :: zs).head? = some '\n' ∧ (z :: zs).tail.head? = some '\n') := by
                  rintro ⟨-, hzz, -⟩
                  rw [List.head?_cons] at hzz
                  injection hzz with hzz
                  exact hz hzz
                rw [collapse_cons_of_not hguard] at h2
                injection h2 with h3 h4
                have hh := collapse_head? (z :: zs)
                rw [h4] at hh
                simp only [List.head?_cons] at hh
                injection hh with h5
                exact hz h5.symm
      · exact collapse_no_three cs ho

theorem collapse_eq_self_of_no_three :
    ∀ {s : List Char}, ¬ occurs ['\n', '\n', '\n'] s → collapse s = s
  | [], _ => rfl
  | c :: cs, h => by
    by_cases htrip : c = '\n' ∧ cs.head? = some '\n' ∧ cs.tail.head? = some '\n'
    · exfalso
      apply h
      obtain ⟨rfl, h2, h3⟩ := htrip
      cases cs with
      | nil => exact absurd h2 (by simp)
      | cons y ys =>
        simp only [List.head?_cons] at h2
        injection h2 with h2
        subst h2
        cases ys with
        | nil => exact absurd h3 (by simp)
        | cons z zs =>
          simp only [List.tail_cons, List.head?_cons] at h3
          injection h3 with h3
          subst h3
          exact ⟨[], zs, rfl⟩
    · rw [collapse_cons_of_not htrip,
        collapse_eq_self_of_no_three (fun ho => h (occurs_cons_iff.mpr (Or.inr ho)))]

theorem collapse_idem (s : List Char) : collapse (collapse s) = collapse s :=
  collapse_eq_self_of_no_three (collapse_no_three s)

theorem collapse_append : ∀ (B : List Char), (∀ d ∈ B.getLast?, d ≠ '\n') →
    ∀ (c : List Char), collapse (B ++ c) = collapse B ++ collapse c
  | [], _, c => by simp [collapse]
  | [x], h, c => by
    have hx : x ≠ '\n' := h x rfl
    rw [List.cons_append, List.nil_append,
      collapse_cons_of_not (fun hand => hx hand.1),
      show collapse [x] = [x] by rw [collapse_cons_of_not (fun hand => hx hand.1)]; rfl,
      List.cons_append, List.nil_append]
  | x :: y :: ys, h, c => by
    have h' : ∀ d ∈ (y :: ys).getLast?, d ≠ '\n' := by
      intro d hd
      exact h d (by rwa [List.getLast?_cons_cons])
    have ih := collapse_append (y :: ys) h' c
    cases ys with
    | nil =>
      have hy : y ≠ '\n' := h' y rfl
      have g1 : ¬ (x = '\n' ∧ (y :: c).head? = some '\n' ∧ (y :: c).tail.head? = some '\n') := by
        rintro ⟨-, h2, -⟩
        rw [List.head?_cons] at h2
        injection h2 with h2
        exact hy h2
      have gy : ¬ (y = '\n' ∧ c.head? = some '\n' ∧ c.tail.head? = some '\n') := by
        rintro ⟨h2, -, -⟩
        exact hy h2
      have g2 : ¬ (x = '\n' ∧ ([y] : List Char).head? = some '\n' ∧ ([y] : List Char).tail.head? = some '\n') := by
        rintro ⟨-, h2, -⟩
        rw [List.head?_cons] at h2
        injection h2 with h2
        exact hy h2
      have g3 : ¬ (y = '\n' ∧ ([] : List Char).head? = some '\n' ∧ ([] : List Char).tail.head? = some '\n') := by
        rintro ⟨-, h2, -⟩
        exact Option.noConfusion h2
      show collapse (x :: y :: c) = collapse [x, y] ++ collapse c
      rw [collapse_cons_of_not g1, collapse_cons_of_not gy,
        collapse_cons_of_not g2, collapse_cons_of_not g3]
      simp [collapse]
    | cons z zs =>
      have hsame :
          (x = '\n' ∧ ((y :: z :: zs) ++ c).head? = some '\n' ∧ ((y :: z :: zs) ++ c).tail.head? = some '\n')
            ↔ (x = '\n' ∧ (y :: z :: zs).head? = some '\n' ∧ (y :: z :: zs).tail.head? = some '\n') := by
        simp
      by_cases htrip : x = '\n' ∧ (y :: z :: zs).head? = some '\n' ∧ (y :: z :: zs).tail.head? = some '\n'
      · rw [List.cons_append, collapse_cons_of_triple (hsame.mpr htrip),
          collapse_cons_of_triple htrip, ih]
      · rw [List.cons_append, collapse_cons_of_not (fun hh => htrip (hsame.mp hh)),
          collapse_cons_of_not htrip, ih, List.cons_append]

/-! ## Lemmas: `cutStrip` and `stripBoilerplate` -/

theorem dropTrailEmoji_segment (e : Char) (l : List Char) :
    ∃ y, l = dropTrailEmoji e l ++ y := by
  rw [dropTrailEmoji]
  split
  · next hlast =>
    have hne : l ≠ [] := by
      intro hnil
      rw [hnil] at hlast
      exact Option.noConfusion hlast
    exact ⟨[l.getLast hne], (List.dropLast_append_getLast hne).symm⟩
  · exact ⟨[], by simp⟩

theorem cutStrip_segment (e : Char) (ts : List (List Char)) (s : List Char) :
    ∃ x y, s = x ++ cutStrip e ts s ++ y := by
  rw [cutStrip]
  cases hf : findOccAny ts (s.map lowerChar) with
  | none => exact pyStrip_segment s
  | some i =>
    have seg1 : ∃ x y, s = x ++ s.take i ++ y :=
      ⟨[], s.drop i, by rw [List.nil_append, List.take_append_drop]⟩
    have seg2 : ∃ x y, s.take i = x ++ pyStripRight (s.take i) ++ y := by
      obtain ⟨y, hy⟩ := pyStripRight_segment (s.take i)
      exact ⟨[], y, by rw [List.nil_append, ← hy]⟩
    have seg3 : ∃ x y, pyStripRight (s.take i) =
        x ++ dropTrailEmoji e (pyStripRight (s.take i)) ++ y := by
      obtain ⟨y, hy⟩ := dropTrailEmoji_segment e (pyStripRight (s.take i))
      exact ⟨[], y, by rw [List.nil_append, ← hy]⟩
    have seg4 := pyStrip_segment (dropTrailEmoji e (pyStripRight (s.take i)))
    exact segment_trans (segment_trans (segment_trans seg1 seg2) seg3) seg4

theorem cutStrip_pyStrip_fixed (e : Char) (ts : List (List Char)) (s : List Char) :
    pyStrip (cutStrip e ts s) = cutStrip e ts s := by
  rw [cutStrip]
  cases hf : findOccAny ts (s.map lowerChar) with
  | none => exact pyStrip_idem s
  | some i => exact pyStrip_idem _

theorem cutStrip_no_occurs (e : Char) {ts : List (List Char)} (s : List Char)
    (hts : ∀ t ∈ ts, t ≠ []) :
    ∀ t ∈ ts, ¬ occurs t ((cutStrip e ts s).map lowerChar) := by
  intro t ht
  rw [cutStrip]
  cases hf : findOccAny ts (s.map lowerChar) with
  | none =>
    have habs := findOccAny_none hf t ht
    obtain ⟨x, y, hxy⟩ := pyStrip_segment s
    exact not_occurs_segment (segment_map lowerChar ⟨x, y, hxy⟩) habs
  | some i =>
    have habs := findOccAny_some_take hts hf t ht
    rw [← List.map_take] at habs
    have seg : ∃ x y, s.take i = x ++ pyStrip (dropTrailEmoji e (pyStripRight (s.take i))) ++ y := by
      have seg2 : ∃ x y, s.take i = x ++ pyStripRight (s.take i) ++ y := by
        obtain ⟨y, hy⟩ := pyStripRight_segment (s.take i)
        exact ⟨[], y, by rw [List.nil_append, ← hy]⟩
      have seg3 : ∃ x y, pyStripRight (s.take i) =
          x ++ dropTrailEmoji e (pyStripRight (s.take i)) ++ y := by
        obtain ⟨y, hy⟩ := dropTrailEmoji_segment e (pyStripRight (s.take i))
        exact ⟨[], y, by rw [List.nil_append, ← hy]⟩
      exact segment_trans (segment_trans seg2 seg3)
        (pyStrip_segment (dropTrailEmoji e (pyStripRight (s.take i))))
    exact not_occurs_segment (segment_map lowerChar seg) habs

/-- Absence of a lowered occurrence passes through `cutStrip` because its
output is a contiguous segment of its input. -/
theorem cutStrip_preserves_no_occurs (e : Char) (ts : List (List Char)) {t s : List Char}
    (h : ¬ occurs t (s.map lowerChar)) : ¬ occurs t ((cutStrip e ts s).map lowerChar) :=
  not_occurs_segment (segment_map lowerChar (cutStrip_segment e ts s)) h

theorem cutStrip_eq_self {e : Char} {ts : List (List Char)} {u : List Char}
    (habs : ∀ t ∈ ts, ¬ occurs t (u.map lowerChar)) (hfix : pyStrip u = u) :
    cutStrip e ts u = u := by
  rw [cutStrip, findOccAny_eq_none habs, hfix]

theorem boiler_triggers_ne_nil_1 : ∀ t ∈ BOILER_TRIGGER_1, t ≠ ([] : List Char) := by decide
theorem boiler_triggers_ne_nil_2 : ∀ t ∈ BOILER_TRIGGER_2, t ≠ ([] : List Char) := by decide
theorem boiler_triggers_ne_nil_3 : ∀ t ∈ BOILER_TRIGGER_3, t ≠ ([] : List Char) := by decide

theorem stripBoilerplate_segment (s : List Char) :
    ∃ x y, s = x ++ stripBoilerplate s ++ y := by
  rw [stripBoilerplate]
  exact segment_trans (segment_trans (cutStrip_segment '📺' BOILER_TRIGGER_1 s)
      (cutStrip_segment '📺' BOILER_TRIGGER_2 _))
    (cutStrip_segment '📚' BOILER_TRIGGER_3 _)

theorem stripBoilerplate_pyStrip_fixed (s : List Char) :
    pyStrip (stripBoilerplate s) = stripBoilerplate s :=
  cutStrip_pyStrip_fixed '📚' BOILER_TRIGGER_3 _

/-- After the three substitutions none of the trigger phrases occurs in the
lower-cased answer (the third trigger list is contained in the second). -/
theorem stripBoilerplate_no_triggers (s : List Char) :
    ∀ t, (t ∈ BOILER_TRIGGER_1 ∨ t ∈ BOILER_TRIGGER_2 ∨ t ∈ BOILER_TRIGGER_3) →
      ¬ occurs t ((stripBoilerplate s).map lowerChar) := by
  intro t ht
  rw [stripBoilerplate]
  rcases ht with h1 | h2 | h3
  · exact cutStrip_preserves_no_occurs '📚' BOILER_TRIGGER_3
      (cutStrip_preserves_no_occurs '📺' BOILER_TRIGGER_2
        (cutStrip_no_occurs '📺' s boiler_triggers_ne_nil_1 t h1))
  · exact cutStrip_preserves_no_occurs '📚' BOILER_TRIGGER_3
      (cutStrip_no_occurs '📺' _ boiler_triggers_ne_nil_2 t h2)
  · have h2 : t ∈ BOILER_TRIGGER_2 := by
      have heq : t = "for more details".data := by
        simpa [BOILER_TRIGGER_3] using h3
      rw [heq, BOILER_TRIGGER_2]
      exact List.mem_cons_self _ _
    exact cutStrip_preserves_no_occurs '📚' BOILER_TRIGGER_3
      (cutStrip_no_occurs '📺' _ boiler_triggers_ne_nil_2 t h2)

theorem stripBoilerplate_eq_self {u : List Char}
    (habs : ∀ t, (t ∈ BOILER_TRIGGER_1 ∨ t ∈ BOILER_TRIGGER_2 ∨ t ∈ BOILER_TRIGGER_3) →
      ¬ occurs t (u.map lowerChar))
    (hfix : pyStrip u = u) : stripBoilerplate u = u := by
  rw [stripBoilerplate,
    cutStrip_eq_self (fun t ht => habs t (Or.inl ht)) hfix,
    cutStrip_eq_self (fun t ht => habs t (Or.inr (Or.inl ht))) hfix,
    cutStrip_eq_self (fun t ht => habs t (Or.inr (Or.inr ht))) hfix]

theorem boiler_triggers_no_newline :
    ∀ t ∈ BOILER_TRIGGER_1 ++ BOILER_TRIGGER_2 ++ BOILER_TRIGGER_3, '\n' ∉ t := by decide

/-- With no reference request (or no truthy reference) the post-processor is
boilerplate stripping, newline collapsing and stripping only. -/
theorem postProcessAnswer_no_citation {q : String} {ref : Option String}
    (hcond : (is_asking_for_references q && refTruthy ref) = false) (raw : String) :
    postProcessAnswer raw q ref = String.mk (pyStrip (collapse (stripBoilerplate raw.data))) := by
  simp only [postProcessAnswer, hcond, Bool.false_eq_true, if_false]

/-- C7 — for every already-cleaned answer and every question not matching
any reference keyword, applying the post-processing step (boilerplate
stripping, conditional citation, blank-line collapsing, trimming) a second
time yields a string identical to applying it once. -/
theorem c7_postprocess_idempotent (a q : String) (ref : Option String)
    (h : is_asking_for_references q = false) :
    postProcessAnswer (postProcessAnswer a q ref) q ref = postProcessAnswer a q ref := by
  have hcond : (is_asking_for_references q && refTruthy ref) = false := by
    rw [h, Bool.false_and]
  rw [postProcessAnswer_no_citation hcond a, postProcessAnswer_no_citation hcond]
  have hdata : (String.mk (pyStrip (collapse (stripBoilerplate a.data)))).data
      = pyStrip (collapse (stripBoilerplate a.data)) := rfl
  rw [hdata]
  have habs : ∀ t, (t ∈ BOILER_TRIGGER_1 ∨ t ∈ BOILER_TRIGGER_2 ∨ t ∈ BOILER_TRIGGER_3) →
      ¬ occurs t ((pyStrip (collapse (stripBoilerplate a.data))).map lowerChar) := by
    intro t ht hocc
    have hnl : '\n' ∉ t := by
      refine boiler_triggers_no_newline t ?_
      rcases ht with h1 | h2 | h3
      · exact List.mem_append_left _ (List.mem_append_left _ h1)
      · exact List.mem_append_left _ (List.mem_append_right _ h2)
      · exact List.mem_append_right _ h3
    have hocc2 : occurs t ((collapse (stripBoilerplate a.data)).map lowerChar) :=
      occurs_of_segment (segment_map lowerChar (pyStrip_segment (collapse (stripBoilerplate a.data)))) hocc
    exact stripBoilerplate_no_triggers a.data t ht (collapse_occurs_rev hnl hocc2)
  have hfix : pyStrip (pyStrip (collapse (stripBoilerplate a.data)))
      = pyStrip (collapse (stripBoilerplate a.data)) :=
    pyStrip_idem (collapse (stripBoilerplate a.data))
  rw [stripBoilerplate_eq_self habs hfix]
  have hno3 : ¬ occurs ['\n', '\n', '\n'] (pyStrip (collapse (stripBoilerplate a.data))) :=
    fun hocc => collapse_no_three (stripBoilerplate a.data)
      (occurs_of_segment (pyStrip_segment (collapse (stripBoilerplate a.data))) hocc)
  rw [collapse_eq_self_of_no_three hno3, hfix]

/-- Witness for C7 at a concrete cleaned answer and non-reference question. -/
theorem c7_postprocess_idempotent_witness :
    is_asking_for_references "what is the 4T framework" = false ∧
    postProcessAnswer (postProcessAnswer "The 4T framework.\n\n\nFor more details, see slides."
        "what is the 4T framework" (some "For more details, refer to **X**."))
      "what is the 4T framework" (some "For more details, refer to **X**.") =
    postProcessAnswer "The 4T framework.\n\n\nFor more details, see slides."
      "what is the 4T framework" (some "For more details, refer to **X**.") :=
  ⟨by decide, c7_postprocess_idempotent _ _ _ (by decide)⟩

/-! ## C8 — conversation-history formatting -/

theorem foldl_append_eq_flatMap (f : Turn → List String) :
    ∀ (l : List Turn) (acc : List String),
      l.foldl (fun a x => a ++ f x) acc = acc ++ l.flatMap f
  | [], acc => by simp
  | x :: xs, acc => by
    rw [List.foldl_cons, foldl_append_eq_flatMap f xs (acc ++ f x)]
    simp [List.append_assoc]

/-- C8 — the history formatter returns exactly the placeholder on an empty
history, and otherwise renders only the most recent 10 turns in original
order, a `User:` line and an `Assistant:` line per turn with the answer cut
to 200 characters plus an ellipsis, newline-joined. -/
theorem c8_history_format (h : List Turn) :
    format_conversation_history h = historyRenderSpec h := by
  cases h with
  | nil => rfl
  | cons t ts =>
    simp only [format_conversation_history, historyRenderSpec, List.isEmpty_cons,
      Bool.false_eq_true, if_false]
    rw [if_neg (List.cons_ne_nil t ts)]
    rw [foldl_append_eq_flatMap
      (fun ex => ["User: " ++ ex.question, "Assistant: " ++ ex.answer.take 200 ++ "..."])
      ((t :: ts).drop ((t :: ts).length - 10)) []]
    simp

/-! ## C6 — primary source reference -/

/-- C6 — `primaryReference` returns `none` on an empty list, derives the
reference from the first document only, and decides the reference kind in
order session → folder-scoped → general with the first matching condition
winning; for a first document with `session_number = 3` and no facilitator
the text is exactly the session-3 sentence. -/
theorem c6_primary_reference :
    primarySourceReference [] = none ∧
    (∀ (d : Doc) (ds : List Doc), primarySourceReference (d :: ds) = primarySourceReference [d]) ∧
    (∀ d : Doc, primarySourceReference [d] = some (referenceTextSpec d)) ∧
    primarySourceReference [⟨"", none, none, some 3, none, none⟩] =
      some "For more details, refer to **Session 3** videos and documentation (PPT/PDF)." := by
  refine ⟨rfl, fun d ds => rfl, fun d => ?_, by decide⟩
  show (get_source_reference d).reference_text = some (referenceTextSpec d)
  cases hsn : d.session_number with
  | some n =>
    by_cases hn : n = 0
    · subst hn
      simp only [get_source_reference, referenceTextSpec, hsn, Option.getD_some, ne_eq,
        not_true_eq_false, if_false, referenceTextFolderSpec]
      split_ifs <;> rfl
    · simp only [get_source_reference, referenceTextSpec, hsn, Option.getD_some, ne_eq, hn,
        not_false_eq_true, if_true]
  | none =>
    simp only [get_source_reference, referenceTextSpec, hsn, Option.getD_none, ne_eq,
      not_true_eq_false, if_false, referenceTextFolderSpec]
    split_ifs <;> rfl

/-! ## C9 — clean-filename -/

set_option maxRecDepth 2000 in
/-- C9 counterexample — the source deletes every occurrence of `.docx`,
`.pdf`, `.txt` anywhere in the name, not only a trailing extension, so on
`"about.pdf files.docx"` it returns `"about files"` while the claimed
suffix-stripping rule yields `"about.pdf files"`. -/
theorem c9_counterexample :
    extract_clean_filename "about.pdf files.docx" = "about files" ∧
    cleanFilenameSuffixSpec "about.pdf files.docx" = "about.pdf files" ∧
    extract_clean_filename "about.pdf files.docx" ≠
      cleanFilenameSuffixSpec "about.pdf files.docx" :=
  ⟨by decide, by decide, by decide⟩

theorem splitOnListF_ne_nil (pat : List Char) :
    ∀ (fuel : Nat) (l : List Char), splitOnListF pat fuel l ≠ []
  | _, [] => by simp [splitOnListF]
  | 0, c :: cs => by simp [splitOnListF]
  | fuel + 1, c :: cs => by
    rw [splitOnListF]
    split <;> simp

theorem flatten_splitOnListF (pat : List Char) :
    ∀ (fuel : Nat) (l : List Char), (splitOnListF pat fuel l).flatten = replaceAllF pat fuel l
  | _, [] => by simp [splitOnListF, replaceAllF]
  | 0, c :: cs => by simp [splitOnListF, replaceAllF]
  | fuel + 1, c :: cs => by
    rw [splitOnListF, replaceAllF]
    split
    · rw [List.flatten_cons, List.nil_append, flatten_splitOnListF pat fuel _]
    · have hne := splitOnListF_ne_nil pat fuel cs
      have hflat : (splitOnListF pat fuel cs).flatten =
          (splitOnListF pat fuel cs).headI ++ (splitOnListF pat fuel cs).tail.flatten := by
        cases hsp : splitOnListF pat fuel cs with
        | nil => exact absurd hsp hne
        | cons p ps => simp
      rw [List.flatten_cons, List.cons_append, ← hflat, flatten_splitOnListF pat fuel cs]

set_option maxRecDepth 2000 in
/-- C9 amended — the clean-filename operation deletes every occurrence of
`.docx`, then `.pdf`, then `.txt` (split-and-rejoin semantics), strips a
leading digits-dot-whitespace ordinal prefix and trims; on the claim's own
example it yields `"Leadership Basics"`. -/
theorem c9_amended_clean_filename (s : String) :
    extract_clean_filename s = cleanFilenameAmendedSpec s ∧
    extract_clean_filename "12. Leadership Basics.pdf" = "Leadership Basics" := by
  refine ⟨?_, by decide⟩
  rw [extract_clean_filename, cleanFilenameAmendedSpec]
  simp only [replaceAll, splitOnList, flatten_splitOnListF]

/-! ## C1 — profile detection algorithm -/

set_option maxRecDepth 8000 in
/-- C1 counterexample — on `"i am a very busy unique person as a nurse"` the
first regex (`i am a/an X`) matches with a 7-word phrase; the claim's
first-match-only reading then reports no detection, but the source continues
with the remaining patterns and `as a/an X` yields the custom profile
`nurse`. -/
theorem c1_counterexample :
    detectProfileFirstMatchSpec "i am a very busy unique person as a nurse" = none ∧
    detect_profile "i am a very busy unique person as a nurse" =
      some ⟨"custom", some "nurse", "medium", "nurse"⟩ ∧
    detect_profile "i am a very busy unique person as a nurse" ≠
      detectProfileFirstMatchSpec "i am a very busy unique person as a nurse" :=
  ⟨by decide, by decide, by decide⟩

theorem findKeywordHit_eq (ql : List Char) :
    ∀ tbl : List (String × List String),
      (findKeywordHit tbl ql).map (fun pk => (⟨pk.1, none, "high", pk.2⟩ : Detection)) =
        tbl.findSome? (fun pk =>
          (pk.2.find? (fun k => occursB k.data ql)).map (fun k => ⟨pk.1, none, "high", k⟩))
  | [] => rfl
  | (p, kws) :: rest => by
    rw [findKeywordHit, List.findSome?_cons]
    cases hk : kws.find? (fun k => occursB k.data ql) with
    | some k => simp [hk]
    | none => simpa [hk] using findKeywordHit_eq ql rest

/-- C1 amended — lower-case the question and return the first profile (in
declaration order) having a keyword substring, with high confidence and the
matched keyword; otherwise try the four self-identification regexes in
order, returning a medium-confidence custom profile from the first whose
captured phrase — cut at the first whitespace-preceded token starting with
how/what/where/when/why/can/do and trimmed — is nonempty with at most 3
words; otherwise report no detection. -/
theorem c1_amended_detect (q : String) : detect_profile q = detectProfileAmendedSpec q := by
  rw [detect_profile, detectProfileAmendedSpec, keywordHitSpec]
  have hkw := findKeywordHit_eq (q.data.map lowerChar) PROFILE_KEYWORDS
  cases hf : findKeywordHit PROFILE_KEYWORDS (q.data.map lowerChar) with
  | some pk =>
    rw [hf] at hkw
    rw [← hkw]
    rfl
  | none =>
    rw [hf] at hkw
    rw [← hkw]
    show PROFESSION_PATTERNS.findSome? _ = _
    rw [PROFESSION_PATTERNS]
    rw [List.findSome?_cons, List.findSome?_cons, List.findSome?_cons, List.findSome?_cons]
    cases h1 : tryCustomPattern "i am ".data (q.data.map lowerChar) with
    | some d => rfl
    | none =>
      cases h2 : tryCustomPattern "as ".data (q.data.map lowerChar) with
      | some d => rfl
      | none =>
        cases h3 : tryCustomPattern "i\x27m ".data (q.data.map lowerChar) with
        | some d => rfl
        | none =>
          cases h4 : tryCustomPattern "working as ".data (q.data.map lowerChar) with
          | some d => rfl
          | none => simp [List.findSome?]

/-! ## C3 — the custom-profile context build raises in `ask` -/

set_option maxRecDepth 8000 in
/-- C3 — the profile-context block is **not** always successfully built:
for any custom-profile question the synchronous `ask` evaluates
`custom_prof.UPPER()` (line 539), a method Python strings do not have, so
the build raises `AttributeError` and the pipeline aborts before retrieval
even though retrieval and generation would succeed. -/
theorem c3_custom_profile_context_bug :
    detect_profile "i am a nurse" = some ⟨"custom", some "nurse", "medium", "nurse"⟩ ∧
    buildProfileContext (detect_profile "i am a nurse") = Except.error upperAttributeError ∧
    (ask benignAskOracle "i am a nurse" [] initialMetrics).1 =
      ⟨"⚠️ Error: " ++ upperAttributeError, []⟩ :=
  ⟨by decide, by rfl, by decide⟩

/-! ## C5 — metrics counters -/

set_option maxRecDepth 8000 in
/-- C5 counterexample — metrics are **not** mutated only after a completed
query: a query whose retrieval fails after a successful profile detection
increments `profile_detected_count` while `query_count` stays at 0 and the
answer carries the error marker. -/
theorem c5_counterexample :
    (ask failingRetrievalOracle "I am a doctor, help me" [] initialMetrics).2.profile_detected_count = 1 ∧
    (ask failingRetrievalOracle "I am a doctor, help me" [] initialMetrics).2.query_count = 0 ∧
    (ask failingRetrievalOracle "I am a doctor, help me" [] initialMetrics).1.answer =
      "⚠️ Error: retrieval down" :=
  ⟨by decide, by decide, by decide⟩

theorem ask_metrics_of_ok (x : QueryInput) (m : Metrics) (h : askOk x = true) :
    (ask x.oracle x.question x.history m).2.query_count = m.query_count + 1 ∧
    (ask x.oracle x.question x.history m).2.profile_detected_count =
      m.profile_detected_count + (if (detect_profile x.question).isSome then 1 else 0) := by
  cases hb : buildProfileContext (detect_profile x.question) with
  | error e => simp [askOk, hb] at h
  | ok pc =>
    cases hr : retrieveOutcome x.oracle x.question with
    | error e => simp [askOk, hb, hr] at h
    | ok docs =>
      cases hg : x.oracle.generate (format_docs docs) pc
          (format_conversation_history x.history) x.question with
      | error e => simp [askOk, hb, hr, hg] at h
      | ok raw =>
        simp only [ask, hb, hr, hg, completeMetrics, bumpDetected]
        cases hd : detect_profile x.question <;> simp [hd]

theorem runQueries_counts :
    ∀ (inputs : List QueryInput) (m : Metrics), (∀ x ∈ inputs, askOk x = true) →
      (runQueries inputs m).query_count = m.query_count + inputs.length ∧
      (runQueries inputs m).profile_detected_count = m.profile_detected_count +
        (inputs.filter (fun x => (detect_profile x.question).isSome)).length
  | [], m, _ => by simp [runQueries]
  | x :: xs, m, h => by
    have hx := h x (List.mem_cons_self x xs)
    have ih := runQueries_counts xs ((ask x.oracle x.question x.history m).2)
      (fun y hy => h y (List.mem_cons_of_mem x hy))
    have hone := ask_metrics_of_ok x m hx
    have hfold : runQueries (x :: xs) m = runQueries xs ((ask x.oracle x.question x.history m).2) := by
      rw [runQueries, runQueries, List.foldl_cons]
    rw [hfold]
    constructor
    · rw [ih.1, hone.1, List.length_cons]
      omega
    · rw [ih.2, hone.2, List.filter_cons]
      by_cases hd : (detect_profile x.question).isSome = true
      · rw [if_pos (by simpa using hd), if_pos hd, List.length_cons]
        omega
      · rw [if_neg (by simpa using hd), if_neg hd]
        omega

/-- C5 amended — after a sequence of N completing queries of which M had a
detected profile, `query_count = N` and `profile_detected_count = M`, and
`get_metrics` reports a detection rate of `M/N*100` rendered to one decimal
place; `query_count`, the latency total and the query log move only on
completion, but `profile_detected_count` is incremented at detection time
(see the counterexample for a failed query mutating it). -/
theorem c5_amended_metrics (inputs : List QueryInput)
    (h : ∀ x ∈ inputs, askOk x = true) :
    (runQueries inputs initialMetrics).query_count = inputs.length ∧
    (runQueries inputs initialMetrics).profile_detected_count =
      (inputs.filter (fun x => (detect_profile x.question).isSome)).length ∧
    (0 < inputs.length →
      ∃ r, get_metrics (runQueries inputs initialMetrics) = some r ∧
        r.total_queries = inputs.length ∧
        r.profile_detected = (inputs.filter (fun x => (detect_profile x.question).isSome)).length ∧
        r.detection_rate = formatRatePercent
          (inputs.filter (fun x => (detect_profile x.question).isSome)).length inputs.length) := by
  obtain ⟨h1, h2⟩ := runQueries_counts inputs initialMetrics h
  have h1' : (runQueries inputs initialMetrics).query_count = inputs.length := by
    rw [h1]
    simp [initialMetrics]
  have h2' : (runQueries inputs initialMetrics).profile_detected_count =
      (inputs.filter (fun x => (detect_profile x.question).isSome)).length := by
    rw [h2]
    simp [initialMetrics]
  refine ⟨h1', h2', fun hpos => ?_⟩
  rw [get_metrics, if_neg (by rw [h1']; omega)]
  exact ⟨_, rfl, by simp [h1'], by simp [h2'], by simp [h1', h2']⟩

set_option maxRecDepth 8000 in
/-- Witness for C5 amended: two completing queries, one with a detected
profile (rate rendered as `"50.0%"` by the fixture arithmetic). -/
theorem c5_amended_metrics_witness :
    (∀ x ∈ c5WitnessInputs, askOk x = true) ∧
    ((runQueries c5WitnessInputs initialMetrics).query_count = c5WitnessInputs.length ∧
     (runQueries c5WitnessInputs initialMetrics).profile_detected_count =
       (c5WitnessInputs.filter (fun x => (detect_profile x.question).isSome)).length ∧
     (0 < c5WitnessInputs.length →
       ∃ r, get_metrics (runQueries c5WitnessInputs initialMetrics) = some r ∧
         r.total_queries = c5WitnessInputs.length ∧
         r.profile_detected = (c5WitnessInputs.filter (fun x => (detect_profile x.question).isSome)).length ∧
         r.detection_rate = formatRatePercent
           (c5WitnessInputs.filter (fun x => (detect_profile x.question).isSome)).length
           c5WitnessInputs.length)) :=
  ⟨by decide, c5_amended_metrics c5WitnessInputs (by decide)⟩

/-! ## C10 — streaming history and marker -/

theorem foldl_append_filter_ne_empty :
    ∀ (l : List String) (acc : String),
      (l.filter (fun c => c ≠ "")).foldl (· ++ ·) acc = l.foldl (· ++ ·) acc
  | [], _ => rfl
  | x :: xs, acc => by
    by_cases hx : x = ""
    · subst hx
      rw [List.filter_cons, if_neg (by simp), List.foldl_cons,
        show acc ++ "" = acc from by simp, foldl_append_filter_ne_empty xs acc]
    · rw [List.filter_cons, if_pos (by simpa using hx), List.foldl_cons, List.foldl_cons,
        foldl_append_filter_ne_empty xs (acc ++ x)]

/-- C10 — on a successful streaming query the recorded turn's answer is
exactly the concatenation of the model's streamed chunks (no citation chunk
and no boilerplate stripping is reflected in it), the history itself is
never yielded, and the orchestrator's only trailing addition after the
optional citation chunk is the marker chunk carrying the updated history's
length. -/
theorem c10_stream_history_and_marker (o : StreamOracle) (q : String) (hist : List Turn)
    (m : Metrics) (docs : List Doc) (chunks : List String)
    (hr : streamRetrieveOutcome o q = .ok docs)
    (hs : o.stream (format_docs docs) (streamProfileContext (detect_profile q))
      (format_conversation_history hist) q = (chunks, none)) :
    (ask_stream o q hist m).2.1 =
      some (hist ++ [⟨q, chunks.foldl (· ++ ·) "", o.now⟩]) ∧
    (ask_stream o q hist m).1 =
      chunks.filter (fun c => c ≠ "") ++
      (if is_asking_for_references q && refTruthy (primarySourceReference docs) then
        ["\n\n📚 " ++ (primarySourceReference docs).getD ""]
      else []) ++
      ["__HISTORY_UPDATE__:" ++ toString (hist.length + 1)] := by
  have hfull : (chunks.filter (fun c => c ≠ "")).foldl (· ++ ·) "" = chunks.foldl (· ++ ·) "" :=
    foldl_append_filter_ne_empty chunks ""
  simp only [ask_stream, hr, hs, hfull, List.length_append, List.length_cons,
    List.length_nil, Nat.zero_add]
  constructor <;> trivial

/-- Witness for C10 at a concrete successful stream with a falsy chunk. -/
theorem c10_stream_history_and_marker_witness :
    (ask_stream okStreamOracle "tell me about leadership" [] initialMetrics).2.1 =
      some ([] ++ [⟨"tell me about leadership", ["Hello ", "", "world"].foldl (· ++ ·) "", okStreamOracle.now⟩]) ∧
    (ask_stream okStreamOracle "tell me about leadership" [] initialMetrics).1 =
      (["Hello ", "", "world"].filter (fun c => c ≠ "")) ++
      (if is_asking_for_references "tell me about leadership" && refTruthy (primarySourceReference []) then
        ["\n\n📚 " ++ (primarySourceReference []).getD ""]
      else []) ++
      ["__HISTORY_UPDATE__:" ++ toString (([] : List Turn).length + 1)] :=
  c10_stream_history_and_marker okStreamOracle "tell me about leadership" [] initialMetrics
    [] ["Hello ", "", "world"] (by rfl) (by rfl)

/-! ## C4 — citation append -/

theorem leads_head? {t s : List Char} (h : leads t s) (ht : t ≠ []) :
    s.head? = t.head? := by
  obtain ⟨r, rfl⟩ := h
  exact List.head?_append_of_ne_nil t ht

theorem leads_append_split {t d w : List Char} (h : leads t (d ++ w))
    (hlen : t.length ≤ d.length) : leads t d := by
  obtain ⟨rest, heq⟩ := h
  have ht : t = d.take t.length := by
    have h1 : (d ++ w).take t.length = d.take t.length :=
      List.take_append_of_le_length hlen
    rw [heq] at h1
    rw [← h1, List.take_append_of_le_length (le_refl t.length), List.take_length]
  refine ⟨d.drop t.length, ?_⟩
  conv_lhs => rw [← List.take_append_drop t.length d]
  rw [← ht]

theorem leads_append_overflow {t d w : List Char} (h : leads t (d ++ w))
    (hlen : d.length < t.length) :
    ∃ t₂, t = d ++ t₂ ∧ leads t₂ w ∧ t₂ ≠ [] := by
  obtain ⟨rest, heq⟩ := h
  have hd : d = t.take d.length := by
    have h1 : (t ++ rest).take d.length = t.take d.length :=
      List.take_append_of_le_length (Nat.le_of_lt hlen)
    rw [← heq] at h1
    rw [← h1, List.take_append_of_le_length (le_refl d.length), List.take_length]
  refine ⟨t.drop d.length, ?_, ?_, ?_⟩
  · conv_lhs => rw [← List.take_append_drop d.length t]
    rw [← hd]
  · have heq2 : d ++ w = d ++ (t.drop d.length ++ rest) := by
      rw [heq]
      conv_lhs => rw [← List.take_append_drop d.length t, ← hd]
      rw [List.append_assoc]
    exact ⟨rest, List.append_cancel_left heq2⟩
  · intro hnil
    have := List.length_drop d.length t
    rw [hnil] at this
    simp at this
    omega

/-- A nonempty newline-free word occurring in a list extended by two
newlines already occurs in the list itself. -/
theorem occurs_append_nn {t u : List Char} (ht : '\n' ∉ t) (htne : t ≠ []) :
    occurs t (u ++ ['\n', '\n']) → occurs t u := by
  intro h
  obtain ⟨i, hld⟩ := occurs_iff_exists_drop.mp h
  rw [List.drop_append_eq_append_drop] at hld
  by_cases hi : i ≤ u.length
  · rw [show i - u.length = 0 from by omega, List.drop_zero] at hld
    by_cases hl : t.length ≤ (u.drop i).length
    · exact occurs_iff_exists_drop.mpr ⟨i, leads_append_split hld hl⟩
    · obtain ⟨t₂, hteq, hlw, htne2⟩ := leads_append_overflow hld (by omega)
      exfalso
      have hh := leads_head? hlw htne2
      rw [List.head?_cons] at hh
      have : '\n' ∈ t₂ := by
        cases t₂ with
        | nil => exact absurd rfl htne2
        | cons a t₂' =>
          rw [List.head?_cons] at hh
          injection hh with hh
          rw [← hh]
          exact List.mem_cons_self _ _
      exact ht (by rw [hteq]; exact List.mem_append_right _ this)
  · exfalso
    have hzero : u.drop i = [] := List.drop_eq_nil_of_le (by omega)
    rw [hzero, List.nil_append] at hld
    have hne2 : t.length ≤ (List.drop (i - u.length) ['\n', '\n']).length :=
      leads_length hld
    have hmem : ∀ c ∈ List.drop (i - u.length) ['\n', '\n'], c = '\n' := by
      intro c hc
      have := List.mem_of_mem_drop hc
      simpa using this
    cases hdq : List.drop (i - u.length) ['\n', '\n'] with
    | nil =>
      rw [hdq] at hld
      exact htne (leads_nil hld)
    | cons a w' =>
      rw [hdq] at hld
      have hh := leads_head? hld htne
      rw [List.head?_cons] at hh
      have ha : a = '\n' := hmem a (by rw [hdq]; exact List.mem_cons_self _ _)
      cases t with
      | nil => exact htne rfl
      | cons b t' =>
        rw [List.head?_cons] at hh
        injection hh with hh
        exact ht (by rw [← hh, ha]; exact List.mem_cons_self _ _)

/-- Uniqueness of the occurrence of `t` at the very end of `X ++ t` when the
head character of `t` does not recur in its tail and `t` does not occur in
`X`. -/
theorem unique_leads_append {X t : List Char} {c : Char}
    (hhead : t.head? = some c) (hc : c ∉ t.tail) (hXabs : ¬ occurs t X) :
    ∃! i, leads t ((X ++ t).drop i) := by
  have htne : t ≠ [] := by
    intro hnil
    rw [hnil] at hhead
    exact Option.noConfusion hhead
  refine ⟨X.length, ⟨[], by rw [List.drop_left, List.append_nil]⟩, ?_⟩
  intro j hj
  by_cases hgt : X.length < j
  · exfalso
    rw [List.drop_append_eq_append_drop, List.drop_eq_nil_of_le (Nat.le_of_lt hgt),
      List.nil_append] at hj
    have hlen := leads_length hj
    rw [List.length_drop] at hlen
    have htpos : 0 < t.length := List.length_pos.mpr htne
    omega
  · by_cases hlt : j < X.length
    · exfalso
      rw [List.drop_append_eq_append_drop, show j - X.length = 0 from by omega,
        List.drop_zero] at hj
      by_cases hl : t.length ≤ (X.drop j).length
      · exact hXabs (occurs_iff_exists_drop.mpr ⟨j, leads_append_split hj hl⟩)
      · obtain ⟨t₂, hteq, hlw, htne2⟩ := leads_append_overflow hj (by omega)
        have hh := leads_head? hlw htne2
        rw [hhead] at hh
        have hdpos : 0 < (X.drop j).length := by
          rw [List.length_drop]
          omega
        have hmem : c ∈ t₂ := by
          cases t₂ with
          | nil => exact absurd rfl htne2
          | cons a t₂' =>
            rw [List.head?_cons] at hh
            injection hh with hh
            rw [hh]
            exact List.mem_cons_self _ _
        -- t₂ sits at offset ≥ 1 inside t, hence inside t.tail
        have : c ∈ t.tail := by
          have hdrop : t₂ = t.drop (X.drop j).length := by
            rw [hteq, List.drop_left]
          have h1 : t.drop (X.drop j).length = (t.tail).drop ((X.drop j).length - 1) := by
            cases t with
            | nil => simp
            | cons b t' =>
              rw [List.tail_cons]
              obtain ⟨k, hk⟩ : ∃ k, (X.drop j).length = k + 1 :=
                ⟨(X.drop j).length - 1, by omega⟩
              rw [hk, List.drop_succ_cons]
              simp
          rw [hdrop, h1] at hmem
          exact List.mem_of_mem_drop hmem
        exact hc this
    · omega

/-- Inside a list whose members all satisfy the stripped predicate, a
leading all-whitespace block is skipped by `dropWhile`. -/
theorem dropWhile_append_of_all {p : Char → Bool} {a b : List Char}
    (h : ∀ c ∈ a, p c = true) : (a ++ b).dropWhile p = b.dropWhile p := by
  induction a with
  | nil => rfl
  | cons x xs ih =>
    rw [List.cons_append, List.dropWhile_cons, if_pos (h x (List.mem_cons_self _ _))]
    exact ih (fun c hc => h c (List.mem_cons_of_mem x hc))

/-- C4 — the post-processor appends the citation line (`\n\n📚 ` plus the
reference text) exactly when the question matches a reference keyword and a
truthy primary reference exists; since model boilerplate is stripped before
the conditional append, the appended citation survives to the end of the
final answer and occurs in it exactly once.  The hypotheses on `r` hold for
every reference text the metadata handler produces: nonempty, free of
newlines and of `📚`, no trailing whitespace, and starting (lower-cased)
with `for more details`. -/
theorem c4_citation_append (raw q r : String)
    (hask : is_asking_for_references q = true)
    (h1 : r.data ≠ [])
    (h2 : '\n' ∉ r.data)
    (h3 : '📚' ∉ r.data)
    (h4 : ∀ c ∈ r.data.getLast?, isPySpace c = false)
    (h5 : leadsB "for more details".data (r.data.map lowerChar) = true) :
    (∀ (q' : String) (ref : Option String),
      (is_asking_for_references q' && refTruthy ref) = false →
      postProcessAnswer raw q' ref = String.mk (pyStrip (collapse (stripBoilerplate raw.data)))) ∧
    (∃ X, (postProcessAnswer raw q (some r)).data = X ++ ("📚 " ++ r).data) ∧
    (∃! i, leads ("📚 " ++ r).data ((postProcessAnswer raw q (some r)).data.drop i)) := by
  have htdata : ("📚 " ++ r).data = '📚' :: ' ' :: r.data := by
    rw [String.data_append]
    rfl
  have hcite : ("\n\n📚 " ++ r).data = '\n' :: '\n' :: '📚' :: ' ' :: r.data := by
    rw [String.data_append]
    rfl
  have hrne : r ≠ "" := by
    intro hr
    rw [hr] at h1
    exact h1 rfl
  have hcond : (is_asking_for_references q && refTruthy (some r)) = true := by
    rw [hask, Bool.true_and]
    simp [refTruthy, hrne]
  have hpp : postProcessAnswer raw q (some r) =
      String.mk (pyStrip (collapse (stripBoilerplate raw.data ++
        ('\n' :: '\n' :: '📚' :: ' ' :: r.data)))) := by
    simp only [postProcessAnswer, hcond, if_true, Option.getD_some]
    rw [hcite]
  have hfix : pyStrip (stripBoilerplate raw.data) = stripBoilerplate raw.data :=
    stripBoilerplate_pyStrip_fixed raw.data
  have hlast : ∀ d ∈ (stripBoilerplate raw.data).getLast?, d ≠ '\n' := by
    intro d hd heq
    have hws := pyStrip_getLast (stripBoilerplate raw.data) d (by rw [hfix]; exact hd)
    rw [heq] at hws
    exact absurd hws (by decide)
  have hnlcite : '\n' ∉ ('📚' :: ' ' :: r.data : List Char) := by
    intro hm
    rcases List.mem_cons.mp hm with hm | hm
    · exact absurd hm.symm (by decide)
    · rcases List.mem_cons.mp hm with hm | hm
      · exact absurd hm.symm (by decide)
      · exact h2 hm
  have hcoll : collapse (stripBoilerplate raw.data ++ ('\n' :: '\n' :: '📚' :: ' ' :: r.data)) =
      collapse (stripBoilerplate raw.data) ++ ('\n' :: '\n' :: '📚' :: ' ' :: r.data) := by
    rw [collapse_append (stripBoilerplate raw.data) hlast]
    congr 1
    have g1 : ¬ (('\n' : Char) = '\n' ∧ (('\n' :: '📚' :: ' ' :: r.data) : List Char).head? = some '\n' ∧
        (('\n' :: '📚' :: ' ' :: r.data) : List Char).tail.head? = some '\n') := by
      rintro ⟨-, -, hx⟩
      rw [List.tail_cons, List.head?_cons] at hx
      injection hx with hx
      exact absurd hx (by decide)
    have g2 : ¬ (('\n' : Char) = '\n' ∧ (('📚' :: ' ' :: r.data) : List Char).head? = some '\n' ∧
        (('📚' :: ' ' :: r.data) : List Char).tail.head? = some '\n') := by
      rintro ⟨-, hx, -⟩
      rw [List.head?_cons] at hx
      injection hx with hx
      exact absurd hx (by decide)
    rw [collapse_cons_of_not g1, collapse_cons_of_not g2, collapse_of_no_newline hnlcite]
  have hgetLast_cite : (('\n' :: '\n' :: '📚' :: ' ' :: r.data) : List Char).getLast? = r.data.getLast? := by
    rw [show (('\n' :: '\n' :: '📚' :: ' ' :: r.data) : List Char) = ['\n', '\n', '📚', ' '] ++ r.data from rfl,
      List.getLast?_append_of_ne_nil _ h1]
  have hmain : ∃ X, (postProcessAnswer raw q (some r)).data = X ++ ('📚' :: ' ' :: r.data) ∧
      ¬ occurs ('📚' :: ' ' :: r.data) X := by
    by_cases hBnil : stripBoilerplate raw.data = []
    · refine ⟨[], ?_, ?_⟩
      · rw [hpp]
        show pyStrip (collapse (stripBoilerplate raw.data ++ _)) = _
        rw [hcoll, hBnil, show collapse ([] : List Char) = [] from rfl, List.nil_append,
          pyStrip, pyStripRight_eq_self (by rw [hgetLast_cite]; exact h4),
          show (('\n' :: '\n' :: '📚' :: ' ' :: r.data) : List Char) = ['\n', '\n'] ++ ('📚' :: ' ' :: r.data) from rfl,
          pyStripLeft, dropWhile_append_of_all (by decide), List.dropWhile_cons,
          if_neg (by decide), List.nil_append]
      · intro hocc
        have := occurs_nil_iff.mp hocc
        exact List.noConfusion this
    · have hCB_ne : collapse (stripBoilerplate raw.data) ≠ [] := collapse_ne_nil hBnil
      refine ⟨collapse (stripBoilerplate raw.data) ++ ['\n', '\n'], ?_, ?_⟩
      · rw [hpp]
        show pyStrip (collapse (stripBoilerplate raw.data ++ _)) = _
        have hhead : ∀ c ∈ (collapse (stripBoilerplate raw.data) ++
            ('\n' :: '\n' :: '📚' :: ' ' :: r.data)).head?, isPySpace c = false := by
          intro c hc
          rw [List.head?_append_of_ne_nil _ hCB_ne, collapse_head?] at hc
          exact pyStrip_head (stripBoilerplate raw.data) c (by rw [hfix]; exact hc)
        have hlast2 : ∀ c ∈ (collapse (stripBoilerplate raw.data) ++
            ('\n' :: '\n' :: '📚' :: ' ' :: r.data)).getLast?, isPySpace c = false := by
          intro c hc
          rw [List.getLast?_append_of_ne_nil _ (by simp), hgetLast_cite] at hc
          exact h4 c hc
        rw [hcoll, pyStrip, pyStripRight_eq_self hlast2, pyStripLeft_eq_self hhead,
          List.append_assoc]
        rfl
      · intro hocc
        have hocc_r : occurs r.data (collapse (stripBoilerplate raw.data) ++ ['\n', '\n']) := by
          obtain ⟨a, b, hab⟩ := hocc
          refine ⟨a ++ ['📚', ' '], b, ?_⟩
          rw [hab]
          simp
        have hocc_low : occurs (r.data.map lowerChar)
            ((collapse (stripBoilerplate raw.data) ++ ['\n', '\n']).map lowerChar) := by
          obtain ⟨a, b, hab⟩ := hocc_r
          exact ⟨a.map lowerChar, b.map lowerChar, by rw [hab]; simp⟩
        have hocc_fmd : occurs "for more details".data
            ((collapse (stripBoilerplate raw.data) ++ ['\n', '\n']).map lowerChar) := by
          obtain ⟨a, b, hab⟩ := hocc_low
          obtain ⟨rest, hrest⟩ := (leadsB_iff _ _).mp h5
          rw [hrest] at hab
          exact ⟨a, rest ++ b, by rw [hab]; simp⟩
        have hmapnn : (collapse (stripBoilerplate raw.data) ++ ['\n', '\n']).map lowerChar =
            (collapse (stripBoilerplate raw.data)).map lowerChar ++ ['\n', '\n'] := by
          have hnn : List.map lowerChar ['\n', '\n'] = ['\n', '\n'] := by decide
          rw [List.map_append, hnn]
        rw [hmapnn] at hocc_fmd
        have hfmd1 : '\n' ∉ "for more details".data := by decide
        have hfmd2 : "for more details".data ≠ ([] : List Char) := by decide
        have hocc_fmd2 := collapse_occurs_rev hfmd1 (occurs_append_nn hfmd1 hfmd2 hocc_fmd)
        exact stripBoilerplate_no_triggers raw.data "for more details".data
          (Or.inr (Or.inl (by rw [BOILER_TRIGGER_2]; exact List.mem_cons_self _ _))) hocc_fmd2
  obtain ⟨X, hXeq, hXabs⟩ := hmain
  refine ⟨fun q' ref hc => postProcessAnswer_no_citation hc raw, ⟨X, by rw [hXeq, htdata]⟩, ?_⟩
  rw [htdata, hXeq]
  refine unique_leads_append rfl ?_ hXabs
  intro hm
  rcases List.mem_cons.mp hm with hm | hm
  · exact absurd hm (by decide)
  · exact h3 hm

/-- Witness for C4 at the claim's session-3 reference text and a concrete
question asking for sources. -/
theorem c4_citation_append_witness :
    (∀ (q' : String) (ref : Option String),
      (is_asking_for_references q' && refTruthy ref) = false →
      postProcessAnswer "The 4T framework.\n\nFor more details, see the slides." q' ref =
        String.mk (pyStrip (collapse (stripBoilerplate
          "The 4T framework.\n\nFor more details, see the slides.".data)))) ∧
    (∃ X, (postProcessAnswer "The 4T framework.\n\nFor more details, see the slides."
        "which session is this from?"
        (some "For more details, refer to **Session 3** videos and documentation (PPT/PDF).")).data =
      X ++ ("📚 " ++ "For more details, refer to **Session 3** videos and documentation (PPT/PDF).").data) ∧
    (∃! i, leads ("📚 " ++ "For more details, refer to **Session 3** videos and documentation (PPT/PDF).").data
      ((postProcessAnswer "The 4T framework.\n\nFor more details, see the slides."
        "which session is this from?"
        (some "For more details, refer to **Session 3** videos and documentation (PPT/PDF).")).data.drop i)) :=
  c4_citation_append "The 4T framework.\n\nFor more details, see the slides."
    "which session is this from?"
    "For more details, refer to **Session 3** videos and documentation (PPT/PDF)."
    (by decide) (by decide) (by decide) (by decide) (by decide) (by decide)

/-! ## C2 — failure semantics -/

theorem leadsB_self_append : ∀ (t r : List Char), leadsB t (t ++ r) = true
  | [], _ => rfl
  | a :: as, r => by simp [leadsB, leadsB_self_append as r]

/-- C2 — any exception during the pipeline makes the synchronous `ask`
return an answer beginning with the error marker together with the exact
input history (the failed turn is never recorded), while `ask_stream`
yields one trailing error chunk instead of raising, never emits the
history-update marker and never builds an updated history. -/
theorem c2_failure_semantics (q : String) (hist : List Turn) (m : Metrics)
    (o : AskOracle) (so : StreamOracle) (e : String) :
    (askOk ⟨o, q, hist⟩ = false →
      (ask o q hist m).1.updated_history = hist ∧
      leadsB "⚠️ Error: ".data (ask o q hist m).1.answer.data = true) ∧
    (streamRetrieveOutcome so q = .error e →
      (ask_stream so q hist m).1 = ["\n\n⚠️ Error: " ++ e] ∧
      (ask_stream so q hist m).2.1 = none) ∧
    (∀ (docs : List Doc) (chunks : List String),
      streamRetrieveOutcome so q = .ok docs →
      so.stream (format_docs docs) (streamProfileContext (detect_profile q))
        (format_conversation_history hist) q = (chunks, some e) →
      (ask_stream so q hist m).1 =
        chunks.filter (fun c => c ≠ "") ++ ["\n\n⚠️ Error: " ++ e] ∧
      (ask_stream so q hist m).2.1 = none) := by
  refine ⟨fun hfail => ?_, fun hr => ?_, fun docs chunks hr hs => ?_⟩
  · cases hb : buildProfileContext (detect_profile q) with
    | error eb =>
      simp only [ask, hb]
      refine ⟨by trivial, ?_⟩
      rw [String.data_append]
      exact leadsB_self_append _ _
    | ok pc =>
      cases hrr : retrieveOutcome o q with
      | error er =>
        simp only [ask, hb, hrr]
        refine ⟨by trivial, ?_⟩
        rw [String.data_append]
        exact leadsB_self_append _ _
      | ok docs =>
        cases hg : o.generate (format_docs docs) pc (format_conversation_history hist) q with
        | error eg =>
          simp only [ask, hb, hrr, hg]
          refine ⟨by trivial, ?_⟩
          rw [String.data_append]
          exact leadsB_self_append _ _
        | ok raw => simp [askOk, hb, hrr, hg] at hfail
  · simp only [ask_stream, hr]
    constructor <;> trivial
  · simp only [ask_stream, hr, hs]
    constructor <;> trivial

/-- Witness for C2: a failed generation in the synchronous mode, a failed
retrieval and a mid-stream failure in the streaming mode. -/
theorem c2_failure_semantics_witness :
    ((ask failingGenerationOracle "hello" [⟨"a", "b", "c"⟩] initialMetrics).1.updated_history =
        [⟨"a", "b", "c"⟩] ∧
      leadsB "⚠️ Error: ".data
        (ask failingGenerationOracle "hello" [⟨"a", "b", "c"⟩] initialMetrics).1.answer.data = true) ∧
    ((ask_stream failingRetrievalStreamOracle "hello" [] initialMetrics).1 =
        ["\n\n⚠️ Error: retrieval down"] ∧
      (ask_stream failingRetrievalStreamOracle "hello" [] initialMetrics).2.1 = none) ∧
    ((ask_stream midFailStreamOracle "hello" [] initialMetrics).1 =
        (["Hello ", "", "world"].filter (fun c => c ≠ "")) ++ ["\n\n⚠️ Error: model down"] ∧
      (ask_stream midFailStreamOracle "hello" [] initialMetrics).2.1 = none) :=
  ⟨(c2_failure_semantics "hello" [⟨"a", "b", "c"⟩] initialMetrics failingGenerationOracle
      midFailStreamOracle "model down").1 (by decide),
   (c2_failure_semantics "hello" [] initialMetrics failingGenerationOracle
      failingRetrievalStreamOracle "retrieval down").2.1 (by rfl),
   (c2_failure_semantics "hello" [] initialMetrics failingGenerationOracle
      midFailStreamOracle "model down").2.2 [] ["Hello ", "", "world"] (by rfl) (by rfl)⟩

end ChatBot
